import Mathlib

/-
Verification development for the ORCS task-orchestration engine
(src/orcs/orcs_types.py and src/orcs/core.py).

The Python data model and the orchestration methods are shallowly embedded
as pure Lean functions.  Conventions used throughout:

  * Python dicts are association lists (List (String × _)) with last-wins
    update semantics (assocSet) and front-to-back lookup (assocLookup).
  * JSON-like Python values (tool arguments, model_dump payloads, the
    free-form data field of TaskResult) are the inductive type Value.
  * datetime.now().isoformat() is modelled by the constant nowStr; no
    verified claim depends on the concrete instant.
  * The OpenAI completion client is an oracle supplied as input: one
    LMResponse per round of the tool loop, plus one parse outcome for the
    structured finalization call.
  * Exceptions are values of PyExc, and fallible code returns Except.
  * The injected status_callback is modelled by an event log; a Bool flag
    records whether a callback was provided (Python: if status_callback).
-/

mutual

/-- Python-ish JSON-like value: the shape of parsed tool arguments,
model_dump results and TaskResult.data.  Lists and dicts are their own
mutual inductives so that all recursion over values stays structural. -/
inductive Value where
  | vStr (s : String)
  | vInt (i : Int)
  | vBool (b : Bool)
  | vNone
  | vList (xs : ValueList)
  | vDict (xs : ValueDict)
deriving DecidableEq

/-- A Python list of values. -/
inductive ValueList where
  | nil
  | cons (v : Value) (rest : ValueList)
deriving DecidableEq

/-- A Python dict with string keys and Value values, in insertion order. -/
inductive ValueDict where
  | nil
  | cons (k : String) (v : Value) (rest : ValueDict)
deriving DecidableEq

end

/-- Build a ValueDict from an association list. -/
def ValueDict.ofList : List (String × Value) → ValueDict
  | [] => .nil
  | (k, v) :: rest => .cons k v (ValueDict.ofList rest)

/-- The association list of a ValueDict. -/
def ValueDict.toList : ValueDict → List (String × Value)
  | .nil => []
  | .cons k v rest => (k, v) :: rest.toList

/-- Build a ValueList from a list. -/
def ValueList.ofList : List Value → ValueList
  | [] => .nil
  | v :: rest => .cons v (ValueList.ofList rest)

/-- The plain list of a ValueList. -/
def ValueList.toList : ValueList → List Value
  | .nil => []
  | .cons v rest => v :: rest.toList

/-- Python dict-literal notation helper for Value. -/
def Value.dict (l : List (String × Value)) : Value :=
  .vDict (ValueDict.ofList l)

/-- Python list-literal notation helper for Value. -/
def Value.list (l : List Value) : Value :=
  .vList (ValueList.ofList l)

/-- Dict lookup, first match wins (Python dict keys are unique). -/
def assocLookup {α : Type} : List (String × α) → String → Option α
  | [], _ => none
  | (k, v) :: rest, key => if k = key then some v else assocLookup rest key

/-- Python dict assignment d[key] = val: update in place, append if new. -/
def assocSet {α : Type} : List (String × α) → String → α → List (String × α)
  | [], key, val => [(key, val)]
  | (k, v) :: rest, key, val =>
      if k = key then (k, val) :: rest else (k, v) :: assocSet rest key val

/-- Python `key in d`. -/
def assocHasKey {α : Type} (l : List (String × α)) (key : String) : Bool :=
  (assocLookup l key).isSome

/-- Python enumerate(...). -/
def pyEnumerateFrom {α : Type} : Nat → List α → List (Nat × α)
  | _, [] => []
  | n, x :: xs => (n, x) :: pyEnumerateFrom (n + 1) xs

/-- Python enumerate starting at 0. -/
def pyEnumerate {α : Type} (l : List α) : List (Nat × α) :=
  pyEnumerateFrom 0 l

mutual

/-- Python repr of a Value.  String escaping inside repr is not modelled:
no verified claim inspects it. -/
def pyRepr : Value → String
  | .vStr s => "\x27" ++ s ++ "\x27"
  | .vInt i => toString i
  | .vBool b => if b then "True" else "False"
  | .vNone => "None"
  | .vList xs => "[" ++ String.intercalate ", " (pyReprList xs) ++ "]"
  | .vDict xs => "\x7b" ++ String.intercalate ", " (pyReprDict xs) ++ "\x7d"

/-- The rendered elements of a Python list. -/
def pyReprList : ValueList → List String
  | .nil => []
  | .cons v rest => pyRepr v :: pyReprList rest

/-- The rendered `key: value` entries of a Python dict. -/
def pyReprDict : ValueDict → List String
  | .nil => []
  | .cons k v rest => ("\x27" ++ k ++ "\x27: " ++ pyRepr v) :: pyReprDict rest

end

/-- Python str(v): strings render bare, other values as their repr. -/
def pyStr : Value → String
  | .vStr s => s
  | v => pyRepr v

mutual

/-- Python json.dumps of a Value. -/
def jsonDumps : Value → String
  | .vStr s => "\"" ++ s ++ "\""
  | .vInt i => toString i
  | .vBool b => if b then "true" else "false"
  | .vNone => "null"
  | .vList xs => "[" ++ String.intercalate ", " (jsonDumpsList xs) ++ "]"
  | .vDict xs =>
      "\x7b" ++ String.intercalate ", " (jsonDumpsDict xs) ++ "\x7d"

/-- The dumped elements of a JSON array. -/
def jsonDumpsList : ValueList → List String
  | .nil => []
  | .cons v rest => jsonDumps v :: jsonDumpsList rest

/-- The dumped entries of a JSON object. -/
def jsonDumpsDict : ValueDict → List String
  | .nil => []
  | .cons k v rest => ("\"" ++ k ++ "\": " ++ jsonDumps v) :: jsonDumpsDict rest

end

/-- Constant standing for datetime.now().isoformat(). -/
def nowStr : String := "2024-01-01T00:00:00"

/- ------------ orcs_types.py ------------
All repository types and methods live in the Orcs namespace, because the
source name Task collides with a core Lean name. -/

namespace Orcs

/-- DictList.Item from orcs_types.py. -/
structure DictItem where
  key : String
  value : String
deriving DecidableEq

/-- DictList from orcs_types.py: key value pairs stringified for OpenAI
compatibility. -/
structure DictList where
  items : List DictItem
deriving DecidableEq

/-- DictList.to_dict: dict comprehension over the items (last wins on
duplicate keys, as in Python). -/
def DictList.to_dict (d : DictList) : List (String × String) :=
  d.items.foldl (fun acc it => assocSet acc it.key it.value) []

/-- Python repr of a string-valued dict, used in formatted histories. -/
def strDictRepr (d : List (String × String)) : String :=
  "\x7b" ++
    String.intercalate ", "
      (d.map (fun kv => "\x27" ++ kv.1 ++ "\x27: \x27" ++ kv.2 ++ "\x27")) ++
    "\x7d"

/-- Python json.dumps of a string-valued dict. -/
def strDictDumps (d : List (String × String)) : String :=
  "\x7b" ++
    String.intercalate ", "
      (d.map (fun kv => "\"" ++ kv.1 ++ "\": \"" ++ kv.2 ++ "\"")) ++
    "\x7d"

/-- ToolCallResult from orcs_types.py. -/
structure ToolCallResult where
  tool_name : String
  arguments : DictList
  result : DictList
  timestamp : String
  error : Option String := none
deriving DecidableEq

/-- AgentInteraction from orcs_types.py. -/
structure AgentInteraction where
  agent_name : String
  role : String := "assistant"
  content : String
  tool_calls : Option (List ToolCallResult) := none
  timestamp : String
deriving DecidableEq

/-- Agent from orcs_types.py.  instructions is modelled as the produced
string (the source also allows a zero-argument callable producing one);
tools keeps only the registered names, since the callables are reached
exclusively through the tool registry keyed by name; response_format keeps
the schema identifier, since only its presence and identity are observable
at this boundary. -/
structure Agent where
  name : String := "Agent"
  model : String := "gpt-4o-mini"
  instructions : String := "You are a helpful assistant."
  tools : List String := []
  tool_choice : Option String := none
  parallel_tool_calls : Bool := true
  response_format : Option String := none
deriving DecidableEq

/-- TaskStatus from orcs_types.py. -/
inductive TaskStatus where
  | pending
  | in_progress
  | completed
  | failed
deriving DecidableEq

/-- The .value string of a TaskStatus. -/
def TaskStatus.value : TaskStatus → String
  | .pending => "pending"
  | .in_progress => "in_progress"
  | .completed => "completed"
  | .failed => "failed"

/-- Boolean test for TaskStatus.COMPLETED. -/
def TaskStatus.isCompleted : TaskStatus → Bool
  | .completed => true
  | _ => false

/-- Boolean test for TaskStatus.PENDING. -/
def TaskStatus.isPending : TaskStatus → Bool
  | .pending => true
  | _ => false

/-- TaskResult from orcs_types.py; data is the free-form dict payload. -/
structure TaskResult where
  status : TaskStatus
  data : Value
  message : String
  timestamp : String
deriving DecidableEq

/-- TaskDependency from orcs_types.py: task_id is the upstream subtask id
(the id this edge depends on) and subtask_id is the downstream, dependent
subtask id, exactly as the comments in get_dependencies state. -/
structure TaskDependency where
  task_id : String
  subtask_id : String
deriving DecidableEq

/-- SubTask from orcs_types.py. -/
structure SubTask where
  subtask_id : String
  task_id : String
  agent : Agent
  dependencies : List TaskDependency := []
  title : String
  detail : String
  status : TaskStatus := .pending
  result : Option TaskResult := none
  start_time : Option String := none
  end_time : Option String := none
  icon : Option String := none
  category : Int := 1
  approved : Option Bool := none
  userContext : Option String := none
  history : List AgentInteraction := []
deriving DecidableEq

/-- SubTask.can_execute from orcs_types.py. -/
def SubTask.can_execute (s : SubTask)
    (completed_tasks : List (String × TaskResult)) : Bool :=
  if s.dependencies.isEmpty then true
  else
    s.dependencies.all fun dep =>
      match assocLookup completed_tasks dep.task_id with
      | some r => r.status.isCompleted
      | none => false

/-- SubTask.add_interaction from orcs_types.py. -/
def SubTask.add_interaction (s : SubTask) (agent_name : String)
    (content : String)
    (tool_calls : Option (List ToolCallResult) := none) : SubTask :=
  { s with history := s.history ++
      [{ agent_name := agent_name, content := content,
         tool_calls := tool_calls, timestamp := nowStr }] }

/-- Lines rendered for one interaction inside get_formatted_history. -/
def interactionLines (i : AgentInteraction) : List String :=
  ["[" ++ i.timestamp ++ "] " ++ i.agent_name ++ ":", i.content] ++
  (match i.tool_calls with
   | some tcs =>
       if tcs.isEmpty then []
       else tcs.flatMap fun tc =>
         ["Tool Call: " ++ tc.tool_name,
          "Arguments: " ++ strDictRepr tc.arguments.to_dict,
          "Result: " ++ strDictRepr tc.result.to_dict] ++
         (match tc.error with
          | some e => ["Error: " ++ e]
          | none => [])
   | none => []) ++
  [""]

/-- SubTask.get_formatted_history from orcs_types.py. -/
def SubTask.get_formatted_history (s : SubTask) : String :=
  String.intercalate "\n"
    (("History for subtask \x27" ++ s.title ++ "\x27:") ::
      s.history.flatMap interactionLines)

/-- Task from orcs_types.py. -/
structure Task where
  task_id : String
  query : String := ""
  subtasks : List SubTask := []
  status : TaskStatus := .pending
  result : Option TaskResult := none
  start_time : Option String := none
  end_time : Option String := none
  domain : Option String := none
  needsClarification : Bool := false
  clarificationPrompt : Option String := none
  clarificationResponse : Option String := none
  timestamp : Option String := none
deriving DecidableEq

/-- The subtask list that Task.get_context renders: with a non-empty id
list only the subtasks whose id occurs in it, otherwise all subtasks
(lines 197 to 200 of orcs_types.py). -/
def Task.context_subtasks (t : Task) (subtask_ids : List String) :
    List SubTask :=
  if subtask_ids.isEmpty then t.subtasks
  else t.subtasks.filter fun s => subtask_ids.contains s.subtask_id

/-- Lines rendered for one subtask inside Task.get_context. -/
def contextSubtaskLines (s : SubTask) : List String :=
  ["=== Subtask: " ++ s.title ++ " ===",
   "Status: " ++ s.status.value,
   "Agent: " ++ s.agent.name,
   ""] ++
  (if s.dependencies.isEmpty then []
   else "Dependencies:" ::
     s.dependencies.map (fun dep => "- Depends on subtask: " ++ dep.subtask_id)
     ++ [""]) ++
  (if s.history.isEmpty then ["No interactions recorded yet."]
   else (s.get_formatted_history).splitOn "\n") ++
  ["\n"]

/-- Task.get_context from orcs_types.py. -/
def Task.get_context (t : Task) (subtask_ids : List String := []) : String :=
  String.intercalate "\n"
    ((["Task Context for \x27" ++ t.query ++ "\x27",
       "Status: " ++ t.status.value,
       "Domain: " ++ (match t.domain with | some d => d | none => "None"),
       ""] ++
      (if t.needsClarification then
        ["Clarification Required:",
         "Prompt: " ++
           (match t.clarificationPrompt with | some p => p | none => "None"),
         "Response: " ++
           (match t.clarificationResponse with
            | some r => r
            | none => "Not provided"),
         ""]
       else [])) ++
     (t.context_subtasks subtask_ids).flatMap contextSubtaskLines)

/- ------------ core.py : subtask executor embedding ------------ -/

/-- MAX_ITERATIONS from execute_subtask in core.py. -/
def MAX_ITERATIONS : Nat := 10

/-- One tool call requested by the model: id, function name and the
json.loads of the function.arguments blob (argument-string parse failures
are outside the modelled behavior). -/
structure ToolCallReq where
  id : String
  name : String
  arguments : List (String × Value)
deriving DecidableEq

/-- One chat.completions response: optional text content and the list of
requested tool calls (absent or empty both mean no tool calls). -/
structure LMResponse where
  content : Option String := none
  tool_calls : List ToolCallReq := []
deriving DecidableEq

/-- The language-model oracle for one subtask execution: the response for
each round of the loop (1-based), and the outcome of the single
beta.chat.completions.parse call made by the finalization step. -/
structure SubtaskEnv where
  responses : Nat → LMResponse
  finalize : Except String Value

/-- The tool registry of tool_manager.py, restricted to what core.py
reads: the names carrying an OpenAI schema (self.tools) and the name-keyed
callables (self.functions), each returning either a model_dump association
list or a raised-exception message. -/
structure ToolRegistry where
  tools : List String
  functions : List (String × (List (String × Value) → Except String (List (String × Value))))

/-- ToolRegistry.get_agent_tools, keeping only names (the schemas carry no
further observable content here). -/
def ToolRegistry.get_agent_tools (reg : ToolRegistry) (agent : Agent) : List String :=
  agent.tools.filter (fun n => reg.tools.contains n)

/-- Python exceptions observed by the embedded code. -/
inductive PyExc where
  | keyError (key : String)
  | valueError (message : String) (payload : Option TaskResult)
  | other (message : String)
deriving DecidableEq

/-- Python str(e).  For a ValueError carrying a payload the Python
rendering is the args-tuple repr; only the leading message is kept, since
no verified claim inspects the rendering of the payload. -/
def excStr : PyExc → String
  | .keyError k => "\x27" ++ k ++ "\x27"
  | .valueError m _ => m
  | .other m => m

/-- True exactly for a ValueError. -/
def PyExc.isValueError : PyExc → Bool
  | .valueError _ _ => true
  | _ => false

/-- True exactly for a KeyError. -/
def PyExc.isKeyError : PyExc → Bool
  | .keyError _ => true
  | _ => false

/-- The content payloads attached to some status callbacks. -/
inductive EventContent where
  | toolCallStart (tool : String) (arguments : List (String × Value))
  | toolResult (tool : String) (result : List (String × String)) (error : Option String)
  | toolCallError (tool : String) (error : String)
  | agentResponse (role : String) (content : String)
deriving DecidableEq

/-- Observable trace entries of an execution: status-callback invocations,
the outgoing language-model requests, and the instant a subtask is handed
to the subtask executor together with the completed_results snapshot it
was checked against. -/
inductive Event where
  | status (subtask_id : Option String) (status : TaskStatus) (message : String) (content : Option EventContent)
  | chatRequest (subtask_id : String) (toolsPassed : Option (List String))
  | finalizeRequest (subtask_id : String) (schema : Option String)
  | launch (sub : SubTask) (snapshot : List (String × TaskResult))
deriving DecidableEq

/-- True exactly for a launch trace entry. -/
def Event.isLaunch : Event → Bool
  | .launch _ _ => true
  | _ => false

/-- Append a status-callback event when a callback was provided
(Python: if status_callback). -/
def emit (cb : Bool) (ev : List Event) (e : Event) : List Event :=
  if cb then ev ++ [e] else ev

/-- One entry of the conversation passed to the model. -/
structure AssistantToolCall where
  id : String
  name : String
  arguments : String
deriving DecidableEq

/-- A chat message of the conversation list. -/
structure ChatMessage where
  role : String
  content : Option String := none
  tool_calls : List AssistantToolCall := []
  tool_call_id : Option String := none
deriving DecidableEq

/-- A string-valued dict as a Value. -/
def strDictValue (d : List (String × String)) : Value :=
  Value.dict (d.map (fun kv => (kv.1, .vStr kv.2)))

/-- Python None-or-string as a Value. -/
def optStrValue : Option String → Value
  | none => .vNone
  | some s => .vStr s

/-- Dict subscript access, raising KeyError as an Except. -/
def pyGetItem (d : List (String × Value)) (k : String) : Except String Value :=
  match assocLookup d k with
  | some v => .ok v
  | none => .error ("KeyError: \x27" ++ k ++ "\x27")

/-- Require a string Value (used where the source slices a string). -/
def pyAsStr : Value → Except String String
  | .vStr s => .ok s
  | _ => .error "TypeError: expected str"

/-- Require a dict Value (used where the source calls .items()). -/
def pyAsDict : Value → Except String (List (String × Value))
  | .vDict d => .ok d.toList
  | _ => .error "AttributeError: items"

/-- The DictList items built for one element of result_dict[results] in
the enhanced_web_search branch of _execute_tool_call (lines 611-627 of
core.py). -/
def enhancedEntryItems (r : Value) : Except String (List DictItem) := do
  let d ← pyAsDict r
  let title ← pyGetItem d "title"
  let url ← pyGetItem d "url"
  let summary ← pyGetItem d "summary"
  let contentV ← pyGetItem d "content"
  let content ← pyAsStr contentV
  let source ← pyGetItem d "source"
  let metaV ← pyGetItem d "metadata"
  let metaD ← pyAsDict metaV
  let metaFiltered := metaD.filter
    (fun kv => ["status_code", "redirected_url"].contains kv.1)
  let contentTrunc :=
    if content.length > 1000 then content.take 1000 ++ "..." else content
  pure [⟨"title", pyStr title⟩, ⟨"url", pyStr url⟩,
        ⟨"summary", pyStr summary⟩, ⟨"content", contentTrunc⟩,
        ⟨"source", pyStr source⟩,
        ⟨"metadata", jsonDumps (Value.dict metaFiltered)⟩]

/-- The flattened item list over all entries of result_dict[results]. -/
def enhancedItemsOver : List Value → Except String (List DictItem)
  | [] => .ok []
  | r :: rest => do
      let xs ← enhancedEntryItems r
      let ys ← enhancedItemsOver rest
      pure (xs ++ ys)

/-- The special enhanced_web_search result formatting. -/
def enhancedResultItems (result_dict : List (String × Value)) :
    Except String (List DictItem) := do
  let resultsV ← pyGetItem result_dict "results"
  match resultsV with
  | .vList l => enhancedItemsOver l.toList
  | _ => .error "TypeError: not iterable"

/-- ORCS._execute_tool_call (lines 589-651 of core.py).  The internal
try/except makes it total: unknown tool names and raising tools both
yield a ToolCallResult whose error field carries the message. -/
def ORCS.execute_tool_call (reg : ToolRegistry) (tc : ToolCallReq) : ToolCallResult :=
  let tool_name := tc.name
  match assocLookup reg.functions tool_name with
  | none =>
      { tool_name := tool_name, arguments := ⟨[]⟩, result := ⟨[]⟩,
        error := some ("Error executing tool " ++ tool_name ++
          ": Tool \x27" ++ tool_name ++ "\x27 not found in registry"),
        timestamp := nowStr }
  | some tool_func =>
      let arguments := tc.arguments
      let arguments_dict : DictList :=
        ⟨arguments.map (fun kv => ⟨kv.1, pyStr kv.2⟩)⟩
      match tool_func arguments with
      | .error e =>
          { tool_name := tool_name, arguments := arguments_dict, result := ⟨[]⟩,
            error := some ("Error executing tool " ++ tool_name ++ ": " ++ e),
            timestamp := nowStr }
      | .ok result_dict =>
          match
            (if tool_name = "enhanced_web_search" then
              enhancedResultItems result_dict
             else
              .ok (result_dict.map (fun kv => ⟨kv.1, pyStr kv.2⟩)))
          with
          | .ok items =>
              { tool_name := tool_name, arguments := arguments_dict,
                result := ⟨items⟩, timestamp := nowStr }
          | .error e =>
              { tool_name := tool_name, arguments := arguments_dict,
                result := ⟨[]⟩,
                error := some ("Error executing tool " ++ tool_name ++ ": " ++ e),
                timestamp := nowStr }

/-- The per-tool-call loop of _handle_tool_calls (lines 493-556 of
core.py): status callback, _execute_tool_call, collected_data update,
result callback.  The surrounding try/except of the source only guards
callback failures, which the model treats as non-raising, so it is dead
here. -/
def toolCallsOver (reg : ToolRegistry) (cb : Bool) (sid : String) :
    List ToolCallReq → List (String × Value) → List Event →
    List ToolCallResult × List (String × Value) × List Event
  | [], coll, ev => ([], coll, ev)
  | tc :: rest, coll, ev =>
      let ev := emit cb ev (.status (some sid) .in_progress
        ("Using " ++ tc.name ++ " to gather information...")
        (some (.toolCallStart tc.name tc.arguments)))
      let tool_result := ORCS.execute_tool_call reg tc
      let coll := assocSet coll tc.name (Value.dict
        [("result", strDictValue tool_result.result.to_dict),
         ("error", optStrValue tool_result.error),
         ("timestamp", .vStr tool_result.timestamp)])
      let ev := emit cb ev (.status (some sid) .in_progress
        ("Information gathered from " ++ tc.name)
        (some (.toolResult tc.name tool_result.result.to_dict tool_result.error)))
      let (results, coll, ev) := toolCallsOver reg cb sid rest coll ev
      (tool_result :: results, coll, ev)

/-- The output bundle of _handle_tool_calls. -/
structure ToolCallsOut where
  messages_to_add : List ChatMessage
  tool_results : List ToolCallResult
  subtask : SubTask
  collected_data : List (String × Value)
  events : List Event

/-- ORCS._handle_tool_calls (lines 466-587 of core.py). -/
def ORCS.handle_tool_calls (reg : ToolRegistry) (cb : Bool)
    (subtask : SubTask) (response : LMResponse)
    (collected_data : List (String × Value)) (ev : List Event) : ToolCallsOut :=
  if response.tool_calls.isEmpty then
    ⟨[], [], subtask, collected_data, ev⟩
  else
    let (tool_results, collected_data, ev) :=
      toolCallsOver reg cb subtask.subtask_id response.tool_calls collected_data ev
    let subtask :=
      subtask.add_interaction "system" "Tool execution results" (some tool_results)
    let assistantMsg : ChatMessage :=
      { role := "assistant", content := some ((response.content).getD ""),
        tool_calls := response.tool_calls.map
          (fun t => ⟨t.id, t.name, jsonDumps (Value.dict t.arguments)⟩) }
    let toolMsgs := (tool_results.zip response.tool_calls).map
      (fun p => { role := "tool",
                  content := some (strDictDumps p.1.result.to_dict),
                  tool_call_id := some p.2.id : ChatMessage })
    ⟨assistantMsg :: toolMsgs, tool_results, subtask, collected_data, ev⟩

/-- How one round of the loop ends: a returned TaskResult, or an exception
escaping to the outer handler of execute_subtask, carrying the local state
(subtask, collected_data, iteration) the handler reads. -/
inductive LoopExit where
  | done (result : TaskResult) (subtask : SubTask) (events : List Event)
  | exc (e : PyExc) (subtask : SubTask)
      (collected_data : List (String × Value)) (iteration : Nat)
      (events : List Event)

/-- ORCS._finalize_response (lines 653-726 of core.py).  The appended
final assistant message only feeds the parse request, whose outcome the
oracle supplies, so the message list is not threaded further.  A parse
failure re-raises through the try/except at lines 396-405. -/
def ORCS.finalize_response (env : SubtaskEnv) (cb : Bool) (subtask : SubTask)
    (collected_data : List (String × Value)) (response : LMResponse)
    (iteration : Nat) (ev : List Event) : LoopExit :=
  let ev := emit cb ev (.status (some subtask.subtask_id) .in_progress
    "Finalizing results..."
    (some (.agentResponse "assistant" ((response.content).getD ""))))
  let ev := ev ++ [.finalizeRequest subtask.subtask_id subtask.agent.response_format]
  match env.finalize with
  | .error m => .exc (.other m) subtask collected_data iteration ev
  | .ok structured =>
      let subtask := subtask.add_interaction subtask.agent.name
        ("Final Structured Response: " ++ jsonDumps structured)
      let task_result : TaskResult :=
        { status := .completed,
          data := Value.dict [("final_response", structured),
            ("tool_call_history", Value.dict collected_data)],
          message := "Task completed successfully", timestamp := nowStr }
      let subtask :=
        { subtask with
            status := .completed
            end_time := some nowStr
            result := some task_result }
      let ev := emit cb ev (.status (some subtask.subtask_id) .completed
        "Task completed successfully!" none)
      .done task_result subtask ev

/-- Python content truthiness for the final_message field:
response.content if response.content else None. -/
def contentOrNone : Option String → Value
  | some c => if c.isEmpty then .vNone else .vStr c
  | none => .vNone

/-- The trace entries of the start of one round: the thinking callback
and the outgoing chat request with its tools argument (lines 363-375 of
core.py). -/
def ORCS.roundPrefixEvents (cb : Bool) (st : SubTask)
    (agentTools : List String) (ev : List Event) : List Event :=
  (emit cb ev (.status (some st.subtask_id) .in_progress
    (st.agent.name ++ " agent is thinking...") none)) ++
  [.chatRequest st.subtask_id
    (if agentTools.isEmpty then none else some agentTools)]

/-- Lines 379-383 of core.py: if the response carries truthy content, an
interaction recording it is appended to the subtask history. -/
def ORCS.roundSubtask (st : SubTask) (response : LMResponse) : SubTask :=
  match response.content with
  | some c => if c.isEmpty then st else st.add_interaction st.agent.name c
  | none => st

/-- The while loop of execute_subtask (lines 360-431 of core.py), with
fuel MAX_ITERATIONS - iteration.  The fuel-0 branch is unreachable from
execute_subtask: inside the loop the last iteration either returns or
raises, so the Python guard never goes false. -/
def ORCS.subtaskLoop (reg : ToolRegistry) (env : SubtaskEnv) (cb : Bool)
    (agentTools : List String) :
    Nat → Nat → List ChatMessage → List (String × Value) → SubTask →
    List Event → LoopExit
  | 0, iteration, _messages, coll, st, ev =>
      .exc (.other "loop guard exhausted") st coll iteration ev
  | fuel + 1, iteration0, messages, coll, st, ev =>
      let iteration := iteration0 + 1
      let ev := ORCS.roundPrefixEvents cb st agentTools ev
      let response := env.responses iteration
      let st := ORCS.roundSubtask st response
      let out := ORCS.handle_tool_calls reg cb st response coll ev
      let messages := messages ++ out.messages_to_add
      if out.tool_results.isEmpty then
        ORCS.finalize_response env cb out.subtask out.collected_data response
          iteration out.events
      else if iteration = MAX_ITERATIONS then
        let max_iter_result : TaskResult :=
          { status := .failed,
            data := Value.dict
              [("tool_call_history", Value.dict out.collected_data),
               ("iterations_completed", .vInt iteration),
               ("final_message", contentOrNone response.content)],
            message := "Maximum iterations (" ++ toString MAX_ITERATIONS ++
              ") reached",
            timestamp := nowStr }
        let st2 :=
          { out.subtask with
              status := .failed
              end_time := some nowStr
              result := some max_iter_result }
        let ev := emit cb out.events (.status (some st2.subtask_id) .failed
          ("Task ended after " ++ toString MAX_ITERATIONS ++ " iterations") none)
        .exc (.valueError ("Maximum iterations (" ++ toString MAX_ITERATIONS ++
            ") reached") (some max_iter_result))
          st2 out.collected_data iteration ev
      else
        ORCS.subtaskLoop reg env cb agentTools fuel iteration messages
          out.collected_data out.subtask out.events

/-- The final state of one execute_subtask call: the mutated subtask, the
emitted trace, and either the returned TaskResult or the raised
exception. -/
structure SubExecResult where
  subtask : SubTask
  events : List Event
  outcome : Except PyExc TaskResult

/-- The `except Exception` handler of execute_subtask (lines 433-464 of
core.py): builds the error result around the collected data, reports
FAILED, records an error interaction, marks the subtask FAILED and raises
ValueError(error_msg, error_result). -/
def ORCS.subtaskExceptBlock (cb : Bool) (st : SubTask)
    (collected_data : List (String × Value)) (iteration : Nat)
    (ev : List Event) (e : PyExc) : SubExecResult :=
  let error_msg := "Error in subtask \x27" ++ st.title ++ "\x27: " ++ excStr e
  let error_result : TaskResult :=
    { status := .failed,
      data := Value.dict
        [("tool_call_history", Value.dict collected_data),
         ("error_details", .vStr (excStr e)),
         ("iterations_completed", .vInt iteration)],
      message := error_msg, timestamp := nowStr }
  let ev := emit cb ev (.status (some st.subtask_id) .failed error_msg none)
  let st := st.add_interaction "system" ("Error: " ++ error_msg)
  let st :=
    { st with
        status := .failed
        end_time := some nowStr
        result := some error_result }
  ⟨st, ev, .error (.valueError error_msg (some error_result))⟩

/-- The user prompt built at lines 351-356 of core.py (the f-string keeps
the indentation of the source literal). -/
def subtaskUserPrompt (tk : Task) (subtask : SubTask)
    (subtask_dependencies : List String) : String :=
  "Execute the following subtask: " ++ subtask.title ++
  "\n\n    Detailed Instructions: " ++ subtask.detail ++
  "\n\n    Prior Task Context:\n    " ++ tk.get_context subtask_dependencies

/-- ORCS.execute_subtask (lines 326-464 of core.py), over the tasks map of
the orchestrator, the tool registry and the language-model oracle. -/
def ORCS.execute_subtask (tasks : List (String × Task)) (reg : ToolRegistry)
    (env : SubtaskEnv) (cb : Bool) (subtask : SubTask) : SubExecResult :=
  let st := { subtask with status := .in_progress, start_time := some nowStr }
  let agent := st.agent
  let agentTools := reg.get_agent_tools agent
  let ev := emit cb [] (.status (some st.subtask_id) .in_progress
    ("Agent " ++ agent.name ++ " is analyzing the task...") none)
  match assocLookup tasks st.task_id with
  | none =>
      ORCS.subtaskExceptBlock cb st [] 0 ev (.keyError st.task_id)
  | some tk =>
      let subtask_dependencies := st.dependencies.map (fun dep => dep.subtask_id)
      let messages : List ChatMessage :=
        [{ role := "system", content := some agent.instructions },
         { role := "user",
           content := some (subtaskUserPrompt tk st subtask_dependencies) }]
      match ORCS.subtaskLoop reg env cb agentTools MAX_ITERATIONS 0 messages [] st ev with
      | .done r st2 ev2 => ⟨st2, ev2, .ok r⟩
      | .exc e st2 coll iteration ev2 =>
          ORCS.subtaskExceptBlock cb st2 coll iteration ev2 e

/- ------------ core.py : wave scheduler embedding ------------ -/

/-- Replace the subtask object at position i of the task (Python mutates
the object aliased by both the list and the wave). -/
def Task.setSubtask (t : Task) (i : Nat) (s : SubTask) : Task :=
  { t with subtasks := t.subtasks.set i s }

/-- The outcome of the asyncio.gather of one wave. -/
structure WaveRun where
  task : Task
  events : List Event
  outcome : Except PyExc (List (Nat × SubTask × TaskResult))

/-- The asyncio.gather over one wave (lines 280-281 of core.py), modelled
sequentially in wave order: each member runs execute_subtask against the
live tasks map (the stored map overlaid with the mutating task); the first
raised exception propagates to the wave handler with the later members not
yet started.  A launch trace entry records each member together with the
completed_results snapshot the wave was selected against. -/
def ORCS.runGather (reg : ToolRegistry) (subEnv : String → SubtaskEnv)
    (cb : Bool) (snapshot : List (String × TaskResult))
    (tasksMap : List (String × Task)) :
    List (Nat × SubTask) → Task → List Event → WaveRun
  | [], task, ev => ⟨task, ev, .ok []⟩
  | (i, s) :: rest, task, ev =>
      let tasksCur := assocSet tasksMap task.task_id task
      let ev := ev ++ [.launch s snapshot]
      let r := ORCS.execute_subtask tasksCur reg (subEnv s.subtask_id) cb s
      let task := task.setSubtask i r.subtask
      let ev := ev ++ r.events
      match r.outcome with
      | .error e => ⟨task, ev, .error e⟩
      | .ok res =>
          match ORCS.runGather reg subEnv cb snapshot tasksMap rest task ev with
          | ⟨task2, ev2, .ok triples⟩ =>
              ⟨task2, ev2, .ok ((i, r.subtask, res) :: triples)⟩
          | ⟨task2, ev2, .error e⟩ => ⟨task2, ev2, .error e⟩

/-- The zip-update loop over a successful wave (lines 284-297 of core.py):
append to completed_subtasks (tracked as indices), record the TaskResult
under the subtask id, set status COMPLETED and end_time, report. -/
def ORCS.applyWaveResults (cb : Bool) :
    List (Nat × SubTask × TaskResult) → Task → List (String × TaskResult) →
    List Nat → List Event →
    Task × List (String × TaskResult) × List Nat × List Event
  | [], task, completed, idx, ev => (task, completed, idx, ev)
  | (i, sub, res) :: rest, task, completed, idx, ev =>
      let idx := idx ++ [i]
      let completed := assocSet completed sub.subtask_id res
      let task := task.setSubtask i
        { sub with status := .completed, end_time := some res.timestamp }
      let ev := emit cb ev
        (.status (some sub.subtask_id) .completed "Completed Subtask" none)
      ORCS.applyWaveResults cb rest task completed idx ev

/-- The except block of the wave (lines 299-312 of core.py): every wave
member whose current status is not COMPLETED is marked FAILED with a
FAILED status callback; members are read back from the task at their
index, which is how the Python object aliasing resolves.  Indices come
from enumerate, so the out-of-range branch is unreachable. -/
def ORCS.failWave (cb : Bool) (e : PyExc) :
    List (Nat × SubTask) → Task → List Event → Task × List Event
  | [], task, ev => (task, ev)
  | (i, _) :: rest, task, ev =>
      match task.subtasks.get? i with
      | some sub =>
          if sub.status = .completed then ORCS.failWave cb e rest task ev
          else
            let task := task.setSubtask i { sub with status := .failed }
            let ev := emit cb ev (.status (some sub.subtask_id) .failed
              ("Failed subtask: " ++ sub.title ++ " - " ++ excStr e) none)
            ORCS.failWave cb e rest task ev
      | none => ORCS.failWave cb e rest task ev

/-- The per-member starting callbacks issued before a wave launches
(lines 266-276 of core.py). -/
def waveStartEvents (cb : Bool) (pending : List (Nat × SubTask))
    (ev : List Event) : List Event :=
  if cb then
    ev ++ pending.map (fun p => Event.status (some p.2.subtask_id) .in_progress
      ("Starting subtask: " ++ p.2.title) none)
  else ev

/-- The state after one wave of execute_task. -/
structure WaveOut where
  task : Task
  completed_results : List (String × TaskResult)
  completed_idx : List Nat
  events : List Event
  outcome : Except PyExc Unit

/-- One full wave of execute_task (lines 266-312 of core.py): starting
callbacks, gather, then either the zip-update loop or the except block
re-raising the wave exception. -/
def ORCS.execWave (reg : ToolRegistry) (subEnv : String → SubtaskEnv)
    (cb : Bool) (tasksMap : List (String × Task))
    (completed : List (String × TaskResult)) (task : Task)
    (pending : List (Nat × SubTask)) (idx : List Nat) (ev : List Event) :
    WaveOut :=
  let ev := waveStartEvents cb pending ev
  match ORCS.runGather reg subEnv cb completed tasksMap pending task ev with
  | ⟨task1, ev1, .ok triples⟩ =>
      let (task2, completed2, idx2, ev2) :=
        ORCS.applyWaveResults cb triples task1 completed idx ev1
      ⟨task2, completed2, idx2, ev2, .ok ()⟩
  | ⟨task1, ev1, .error e⟩ =>
      let (task2, ev2) := ORCS.failWave cb e pending task1 ev1
      ⟨task2, completed, idx, ev2, .error e⟩

/-- The ready-set computation of each loop turn (lines 257-260 of
core.py): pending subtasks whose can_execute holds on completed_results,
carried with their list positions. -/
def ORCS.readySet (task : Task) (completed : List (String × TaskResult)) :
    List (Nat × SubTask) :=
  (pyEnumerate task.subtasks).filter
    (fun p => p.2.status.isPending && p.2.can_execute completed)

/-- The final state of one execute_task call. -/
structure TaskExecResult where
  task : Task
  completed_results : List (String × TaskResult)
  events : List Event
  outcome : Except PyExc TaskResult

/-- The code after the while loop (lines 314-324 of core.py), reached both
when every subtask completed and when the loop broke on an empty ready
set: the Task is unconditionally marked COMPLETED, end_time stamped, and a
COMPLETED TaskResult counting the completed subtasks returned.  The data
payload holds the completed SubTask objects, rendered here by id. -/
def ORCS.taskEpilogue (task : Task) (completedIdx : List Nat)
    (completed : List (String × TaskResult)) (ev : List Event) :
    TaskExecResult :=
  let task := { task with status := .completed, end_time := some nowStr }
  ⟨task, completed, ev,
   .ok { status := .completed,
         data := Value.dict [("completed_subtasks",
           Value.list (completedIdx.map (fun i =>
             match task.subtasks.get? i with
             | some s => Value.vStr s.subtask_id
             | none => Value.vNone)))],
         message := "Task completed with " ++ toString completedIdx.length ++
           " subtasks",
         timestamp := nowStr }⟩

/-- The while loop of execute_task (lines 255-312 of core.py).  Each
executed wave is non-empty and permanently moves its members out of
PENDING, so subtasks.length + 1 fuel exceeds the number of turns the
Python loop can take; the fuel-0 branch coincides with the loop exit. -/
def ORCS.taskLoop (reg : ToolRegistry) (subEnv : String → SubtaskEnv)
    (cb : Bool) :
    Nat → List (String × Task) → List (String × TaskResult) → Task →
    List Nat → List Event → TaskExecResult
  | 0, _tasksMap, completed, task, idx, ev => ORCS.taskEpilogue task idx completed ev
  | fuel + 1, tasksMap, completed, task, idx, ev =>
      if idx.length < task.subtasks.length then
        let pending := ORCS.readySet task completed
        if pending.isEmpty then ORCS.taskEpilogue task idx completed ev
        else
          let w := ORCS.execWave reg subEnv cb tasksMap completed task pending idx ev
          match w.outcome with
          | .ok _ => ORCS.taskLoop reg subEnv cb fuel tasksMap
              w.completed_results w.task w.completed_idx w.events
          | .error e => ⟨w.task, w.completed_results, w.events, .error e⟩
      else ORCS.taskEpilogue task idx completed ev

/-- ORCS.execute_task (lines 244-324 of core.py), over the orchestrator
maps, the tool registry and a per-subtask-id language-model oracle. -/
def ORCS.execute_task (reg : ToolRegistry) (subEnv : String → SubtaskEnv)
    (cb : Bool) (tasksMap : List (String × Task))
    (completed : List (String × TaskResult)) (task : Task) : TaskExecResult :=
  let task := { task with status := .in_progress, start_time := some nowStr }
  ORCS.taskLoop reg subEnv cb (task.subtasks.length + 1) tasksMap completed
    task [] []

/- ------------ core.py : planner embedding ------------ -/

/-- One subtask spec of the planner response (fields read by core.py). -/
structure PlannerSubtaskSpec where
  title : String
  agent : String
  detail : String
  category : Int
deriving DecidableEq

/-- The parsed planner response (fields read by core.py). -/
structure PlannerOutput where
  domain : Option String := none
  needsClarification : Bool := false
  clarificationPrompt : Option String := none
  subtasks : List PlannerSubtaskSpec := []
deriving DecidableEq

/-- One entry of the dependency-agent response: empty depends_on models
the no-dependency marker. -/
structure DepInfo where
  subtask_id : String
  depends_on : String
deriving DecidableEq

/-- The parsed dependency-agent response. -/
structure DependencyOutput where
  subtask_dependencies : List DepInfo
deriving DecidableEq

/-- The conversion loop of get_dependencies (lines 161-168 of core.py):
only truthy (non-empty) depends_on entries become edges, with task_id the
upstream id and subtask_id the dependent id. -/
def ORCS.dependenciesOf : List DepInfo → List TaskDependency
  | [] => []
  | dep_info :: rest =>
      if dep_info.depends_on.isEmpty then ORCS.dependenciesOf rest
      else { task_id := dep_info.depends_on,
             subtask_id := dep_info.subtask_id } :: ORCS.dependenciesOf rest

/-- ORCS.get_dependencies (lines 128-170 of core.py); the completion call
is the dependency_output oracle, the rest is the pure conversion. -/
def ORCS.get_dependencies (dependency_output : DependencyOutput) :
    List TaskDependency :=
  ORCS.dependenciesOf dependency_output.subtask_dependencies

/-- The SubTask built for one accepted planner spec (lines 68-76 of
core.py). -/
def mkPlannedSubTask (task_id : String) (idx : Nat)
    (sd : PlannerSubtaskSpec) (agent : Agent) : SubTask :=
  { subtask_id := task_id ++ "_sub_" ++ toString idx,
    task_id := task_id, agent := agent, title := sd.title,
    detail := sd.detail, category := sd.category, status := .pending }

/-- The validation loop of convert_query_to_task (lines 57-77 of core.py):
specs whose agent resolves become SubTasks, the rest contribute their
agent name to invalid_agents, both in source order. -/
def ORCS.splitSpecs (agents : List (String × Agent)) (task_id : String) :
    List (Nat × PlannerSubtaskSpec) → List SubTask × List String
  | [] => ([], [])
  | (idx, sd) :: rest =>
      let (subs, invalid) := ORCS.splitSpecs agents task_id rest
      match assocLookup agents sd.agent with
      | none => (subs, sd.agent :: invalid)
      | some agent => (mkPlannedSubTask task_id idx sd agent :: subs, invalid)

/-- The clarification error message of lines 81-85 of core.py. -/
def clarificationMessage (invalid_agents : List String)
    (available_agents : List String) : String :=
  "I noticed a request for unavailable agents: " ++
  String.intercalate ", " invalid_agents ++
  ". I can only work with these agents: " ++
  String.intercalate ", " available_agents ++
  ". Could you please rephrase your request to use these available services?"

/-- The dependency-attachment loop of lines 119-122 of core.py: each edge
is appended to the subtask whose id equals its subtask_id field; edges
matching no subtask are dropped.  The source goes through an id-keyed
dict; generated subtask ids are distinct, so updating every matching list
entry is the same thing. -/
def ORCS.attachDependencies (subs : List SubTask) :
    List TaskDependency → List SubTask
  | [] => subs
  | dep :: rest =>
      ORCS.attachDependencies
        (subs.map (fun s =>
          if s.subtask_id = dep.subtask_id then
            { s with dependencies := s.dependencies ++ [dep] }
          else s)) rest

/-- ORCS.convert_query_to_task (lines 26-126 of core.py).  The two
completion calls are the planner_output and dependency_output oracles;
task_id stands for the generated uuid. -/
def ORCS.convert_query_to_task (agents : List (String × Agent))
    (task_id : String) (user_query : String)
    (planner_output : PlannerOutput) (dependency_output : DependencyOutput)
    (tasksMap : List (String × Task)) : List (String × Task) × Task :=
  let available_agents := agents.map (fun kv => kv.1)
  let (subtasks, invalid_agents) :=
    ORCS.splitSpecs agents task_id (pyEnumerate planner_output.subtasks)
  if invalid_agents.isEmpty then
    let task : Task :=
      { task_id := task_id, query := user_query, subtasks := subtasks,
        status := .pending, start_time := some nowStr,
        domain := planner_output.domain,
        needsClarification := planner_output.needsClarification,
        clarificationPrompt := planner_output.clarificationPrompt,
        timestamp := some "Just now" }
    let task :=
      if subtasks.isEmpty then task
      else
        let dependencies := ORCS.get_dependencies dependency_output
        { task with
            subtasks := ORCS.attachDependencies task.subtasks dependencies }
    (assocSet tasksMap task_id task, task)
  else
    let error_msg := clarificationMessage invalid_agents available_agents
    let task : Task :=
      { task_id := task_id, query := user_query, subtasks := [],
        status := .pending, start_time := some nowStr,
        domain := planner_output.domain, needsClarification := true,
        clarificationPrompt := some error_msg, timestamp := some "Just now" }
    (assocSet tasksMap task_id task, task)

/- ------------ helpers for stating the verified claims ------------ -/

/-- The TaskResult payload of a raised ValueError, when there is one. -/
def raisedPayload : Except PyExc TaskResult → Option TaskResult
  | .error (.valueError _ (some r)) => some r
  | _ => none

/-- The raised exception of an outcome, when there is one. -/
def outcomeExc : Except PyExc TaskResult → Option PyExc
  | .error e => some e
  | .ok _ => none

/-- Key lookup inside a dict-shaped Value. -/
def dataLookup : Value → String → Option Value
  | .vDict d, k => assocLookup d.toList k
  | _, _ => none

/-- The number of entries of a dict-shaped Value. -/
def dictSize : Option Value → Nat
  | some (.vDict d) => d.toList.length
  | _ => 0

/-- The number of recorded tool-call entries whose error field is None. -/
def nonErrorCount : Option Value → Nat
  | some (.vDict d) =>
      (d.toList.filter (fun kv => dataLookup kv.2 "error" = some .vNone)).length
  | _ => 0

/-- The raised exception of a wave run, when there is one. -/
def WaveRun.err (g : WaveRun) : Option PyExc :=
  match g.outcome with
  | .error e => some e
  | .ok _ => none

/-- The raised exception of a finished wave, when there is one. -/
def WaveOut.err (w : WaveOut) : Option PyExc :=
  match w.outcome with
  | .error e => some e
  | .ok _ => none

/-- The raised exception of an execute_task call, when there is one. -/
def TaskExecResult.err (t : TaskExecResult) : Option PyExc :=
  match t.outcome with
  | .error e => some e
  | .ok _ => none

/- ------------ concrete fixtures ------------ -/

/-- A schema-less agent (response_format defaults to none). -/
def agentA : Agent := { name := "WebSearchAgent" }

/-- A second agent for registry fixtures. -/
def agentM : Agent := { name := "MovieAgent" }

/-- A model oracle that always answers free text, with a trivially
parsing finalization. -/
def respFree : Nat → LMResponse := fun _ => { content := some "hello" }

/-- The environment built from respFree. -/
def envFree : SubtaskEnv :=
  { responses := respFree, finalize := .ok (Value.dict []) }

/-- A registry with no tools at all. -/
def regEmpty : ToolRegistry := ⟨[], []⟩

/-- A dependency-free subtask of task T1. -/
def subA : SubTask :=
  { subtask_id := "T1_sub_0", task_id := "T1", agent := agentA,
    title := "Find info", detail := "Search the web" }

/-- The task owning subA. -/
def taskA : Task := { task_id := "T1", query := "find stuff", subtasks := [subA] }

/-- The orchestrator tasks map holding taskA. -/
def tasksMapA : List (String × Task) := [("T1", taskA)]

/-- One schema-less free-text execution of subA. -/
def outA : SubExecResult := ORCS.execute_subtask tasksMapA regEmpty envFree true subA

/-- The TaskResult outA produces. -/
def resA : TaskResult :=
  { status := .completed
    data := Value.dict
      [("final_response", Value.dict []), ("tool_call_history", Value.dict [])]
    message := "Task completed successfully"
    timestamp := nowStr }

/-- First member of a two-cycle of subtasks. -/
def subX : SubTask :=
  { subtask_id := "T2_sub_0", task_id := "T2", agent := agentA,
    dependencies := [{ task_id := "T2_sub_1", subtask_id := "T2_sub_0" }],
    title := "First", detail := "d0" }

/-- Second member of the two-cycle. -/
def subY : SubTask :=
  { subtask_id := "T2_sub_1", task_id := "T2", agent := agentA,
    dependencies := [{ task_id := "T2_sub_0", subtask_id := "T2_sub_1" }],
    title := "Second", detail := "d1" }

/-- A task whose two subtasks mutually depend on each other. -/
def taskCyc : Task := { task_id := "T2", query := "q", subtasks := [subX, subY] }

/-- Executing the cyclic task. -/
def outCyc : TaskExecResult :=
  ORCS.execute_task regEmpty (fun _ => envFree) true [("T2", taskCyc)] [] taskCyc

/-- A tool that always succeeds. -/
def toolFn (_args : List (String × Value)) :
    Except String (List (String × Value)) :=
  .ok [("answer", .vStr "42")]

/-- A registry holding ten successful tools tool0 .. tool9. -/
def regTen : ToolRegistry :=
  ⟨[], (List.range 10).map (fun i => ("tool" ++ toString i, toolFn))⟩

/-- A model oracle that requests one successful tool call every round,
a distinct tool per round. -/
def respTool : Nat → LMResponse := fun i =>
  { content := none,
    tool_calls := [{ id := "c" ++ toString i,
                     name := "tool" ++ toString (i - 1),
                     arguments := [("q", .vStr "x")] }] }

/-- The environment built from respTool. -/
def envTool : SubtaskEnv := { responses := respTool, finalize := .ok (Value.dict []) }

/-- Executing subA against the always-tool-calling oracle: every round up
to the iteration ceiling performs one successful tool call. -/
def outTool : SubExecResult := ORCS.execute_subtask tasksMapA regTen envTool true subA

/-- The agent registry of the clarification fixtures. -/
def agentsAB : List (String × Agent) :=
  [("WebSearchAgent", agentA), ("MovieAgent", agentM)]

/-- A planner spec naming an unregistered agent. -/
def specGhost : PlannerSubtaskSpec :=
  { title := "Haunt", agent := "GhostAgent", detail := "boo", category := 1 }

/-- A planner spec naming a registered agent. -/
def specWeb : PlannerSubtaskSpec :=
  { title := "Search", agent := "WebSearchAgent", detail := "find", category := 1 }

/-- A planner output containing one invalid agent name. -/
def plannerGhost : PlannerOutput :=
  { domain := some "movies", subtasks := [specWeb, specGhost] }

/-- Converting the ghost plan. -/
def convGhost : List (String × Task) × Task :=
  ORCS.convert_query_to_task agentsAB "T3" "q3" plannerGhost ⟨[]⟩ []

/-- A planner output of two valid specs. -/
def plannerTwo : PlannerOutput := { domain := some "d", subtasks := [specWeb, specWeb] }

/-- A dependency output with an unknown upstream id, an unknown downstream
id, and an empty depends_on. -/
def depGhost : DependencyOutput :=
  ⟨[{ subtask_id := "T6_sub_1", depends_on := "ghost" },
    { subtask_id := "nobody", depends_on := "T6_sub_0" },
    { subtask_id := "T6_sub_0", depends_on := "" }]⟩

/-- Converting the two-spec plan against depGhost. -/
def convTwo : List (String × Task) × Task :=
  ORCS.convert_query_to_task [("WebSearchAgent", agentA)] "T6" "q6"
    plannerTwo depGhost []

/-- Executing subA with an empty tasks map: the parent task was never
registered. -/
def outNoTask : SubExecResult := ORCS.execute_subtask [] regEmpty envFree true subA

/-- A dependency-free first-wave subtask of task T4. -/
def c5sub1 : SubTask :=
  { subtask_id := "T4_sub_0", task_id := "T4", agent := agentA,
    title := "First", detail := "d0" }

/-- A second-wave subtask depending on c5sub1. -/
def c5sub2 : SubTask :=
  { subtask_id := "T4_sub_1", task_id := "T4", agent := agentA,
    dependencies := [{ task_id := "T4_sub_0", subtask_id := "T4_sub_1" }],
    title := "Second", detail := "d1" }

/-- The two-wave task. -/
def c5task : Task := { task_id := "T4", query := "q4", subtasks := [c5sub1, c5sub2] }

/-- Executing the two-wave task. -/
def c5run : TaskExecResult :=
  ORCS.execute_task regEmpty (fun _ => envFree) true [("T4", c5task)] [] c5task

/-- An interaction recorded by the upstream subtask. -/
def interU : AgentInteraction :=
  { agent_name := "WebSearchAgent", content := "found it", timestamp := nowStr }

/-- A completed upstream subtask holding history. -/
def c3u : SubTask :=
  { subtask_id := "T5_sub_0", task_id := "T5", agent := agentA,
    title := "Upstream", detail := "du", status := .completed, history := [interU] }

/-- A downstream subtask depending on c3u. -/
def c3s : SubTask :=
  { subtask_id := "T5_sub_1", task_id := "T5", agent := agentA,
    dependencies := [{ task_id := "T5_sub_0", subtask_id := "T5_sub_1" }],
    title := "Downstream", detail := "ds" }

/-- The task owning the pair. -/
def c3task : Task := { task_id := "T5", query := "q5", subtasks := [c3u, c3s] }

set_option maxRecDepth 8192

/- ------------ closed counterexamples and failing-input evaluations ------------ -/

/-- Claim C1, counterexample.  A subtask run in which all ten rounds
perform a successful tool call, so ten non-error tool results (well over
any fixed minimum threshold) are accumulated when the iteration ceiling is
hit; the claim then expects status COMPLETED, but execute_subtask marks
the subtask FAILED and raises, with the payload recording FAILED, ten
iterations, and the ten accumulated non-error tool results. -/
theorem claim_C1_counterexample :
    outTool.subtask.status = .failed ∧
    (raisedPayload outTool.outcome).map (fun r => r.status) = some .failed ∧
    (raisedPayload outTool.outcome).map
      (fun r => dataLookup r.data "iterations_completed") =
      some (some (.vInt 10)) ∧
    (raisedPayload outTool.outcome).map
      (fun r => nonErrorCount (dataLookup r.data "tool_call_history")) =
      some 10 ∧
    (∀ r : TaskResult, outTool.outcome ≠ .ok r) := by
  refine ⟨by decide, by decide, by decide, by decide, ?_⟩
  intro r h
  have : (raisedPayload outTool.outcome) = none := by rw [h]; rfl
  have h10 : (raisedPayload outTool.outcome).map (fun r => r.status) = some .failed := by
    decide
  rw [this] at h10
  exact Option.noConfusion h10

/-- Claim C2, counterexample.  Executing a task whose two subtasks
mutually depend on each other: the wave loop finds an empty ready set at
once and stops, yet execute_task stamps the Task COMPLETED and returns a
COMPLETED TaskResult counting zero subtasks, with both subtasks still
PENDING — contradicting the claim that a dead-ended task is not reported
as COMPLETED. -/
theorem claim_C2_counterexample :
    outCyc.task.status = .completed ∧
    outCyc.task.end_time = some nowStr ∧
    (outCyc.task.subtasks.map (fun s => s.status)) = [.pending, .pending] ∧
    outCyc.outcome = .ok
      { status := .completed
        data := Value.dict [("completed_subtasks", Value.list [])]
        message := "Task completed with 0 subtasks"
        timestamp := nowStr } := by
  exact ⟨by decide, by decide, by decide, rfl⟩

/-- Claim C3, failing-input evaluation.  The downstream subtask c3s
depends on the upstream c3u through the edge
(task_id = T5_sub_0, subtask_id = T5_sub_1).  Line 348 of core.py collects
dep.subtask_id — the subtask own id — so get_context filters the task to
the downstream subtask itself; the upstream ids dep.task_id would have
selected exactly the dependency c3u, and the two prompts differ. -/
theorem claim_C3_failing_input :
    (c3s.dependencies.map (fun dep => dep.subtask_id)) = ["T5_sub_1"] ∧
    c3task.context_subtasks (c3s.dependencies.map (fun dep => dep.subtask_id)) =
      [c3s] ∧
    (c3s.dependencies.map (fun dep => dep.task_id)) = ["T5_sub_0"] ∧
    c3task.context_subtasks (c3s.dependencies.map (fun dep => dep.task_id)) =
      [c3u] ∧
    c3u ∉ c3task.context_subtasks
      (c3s.dependencies.map (fun dep => dep.subtask_id)) := by
  exact ⟨by decide, by decide, by decide, by decide, by decide⟩

/-- Claim C7, counterexample.  The agent of subA has no output schema
(response_format = none) and the model answers free text at once, yet the
finalization parse request is still issued (it appears in the request
trace with schema none) and the result is the parsed structured object,
not the free text returned as-is. -/
theorem claim_C7_counterexample :
    agentA.response_format = none ∧
    outA.events.get? 4 = some (.finalizeRequest "T1_sub_0" none) ∧
    outA.outcome = .ok resA ∧
    resA.data ≠ Value.vStr "hello" := by
  exact ⟨rfl, by decide, rfl, by decide⟩

/-- Claim C9, counterexample.  The dependency output names the unknown
upstream id ghost for the known downstream subtask T6_sub_1: the edge is
attached to T6_sub_1 even though ghost is not the id of any subtask, so an
edge referencing an unknown subtask id does end up attached. -/
theorem claim_C9_counterexample :
    (convTwo.2.subtasks.map (fun s => s.subtask_id)) = ["T6_sub_0", "T6_sub_1"] ∧
    "ghost" ∉ convTwo.2.subtasks.map (fun s => s.subtask_id) ∧
    (convTwo.2.subtasks.map (fun s => s.dependencies)) =
      [[], [{ task_id := "ghost", subtask_id := "T6_sub_1" }]] := by
  exact ⟨by decide, by decide, by decide⟩

/-- Claim C10, counterexample.  Executing subA while the orchestrator
tasks map is empty: the KeyError raised by the map read is caught inside
execute_subtask, which marks the subtask FAILED and raises a ValueError —
so the exception escaping execute_subtask is not a KeyError, contrary to
the claim. -/
theorem claim_C10_counterexample :
    assocLookup ([] : List (String × Task)) subA.task_id = none ∧
    (outcomeExc outNoTask.outcome).map PyExc.isKeyError = some false ∧
    (outcomeExc outNoTask.outcome).map PyExc.isValueError = some true ∧
    outNoTask.subtask.status = .failed := by
  exact ⟨rfl, by decide, by decide, by decide⟩

/- ------------ basic lemmas ------------ -/

theorem assocLookup_assocSet_self {α : Type} (l : List (String × α))
    (k : String) (v : α) : assocLookup (assocSet l k v) k = some v := by
  induction l with
  | nil => simp [assocSet, assocLookup]
  | cons kv rest ih =>
      by_cases h : kv.1 = k
      · simp [assocSet, assocLookup, h]
      · obtain ⟨k1, v1⟩ := kv
        simp only at h
        simp [assocSet, assocLookup, h, ih]

theorem taskEpilogue_spec (task : Task) (idx : List Nat)
    (completed : List (String × TaskResult)) (ev : List Event) :
    (ORCS.taskEpilogue task idx completed ev).task.status = .completed ∧
    (ORCS.taskEpilogue task idx completed ev).task.end_time = some nowStr ∧
    ∃ r, (ORCS.taskEpilogue task idx completed ev).outcome = .ok r ∧
      r.status = .completed ∧
      r.message = "Task completed with " ++ toString idx.length ++ " subtasks" := by
  exact ⟨rfl, rfl, _, rfl, rfl, rfl⟩

/- ------------ Claim C2 ------------ -/

/-- Claim C2, amended.  When the wave loop of execute_task finds an empty
ready set, it stops the loop silently (no exception) and falls into the
code after the loop, which unconditionally sets the Task COMPLETED,
stamps the end time, and returns a COMPLETED TaskResult counting the
completed subtasks — even when subtasks remain PENDING, so a task whose
remaining subtasks can never satisfy their dependencies is still reported
COMPLETED. -/
theorem claim_C2_amended (reg : ToolRegistry) (subEnv : String → SubtaskEnv)
    (cb : Bool) (fuel : Nat) (tasksMap : List (String × Task))
    (completed : List (String × TaskResult)) (task : Task) (idx : List Nat)
    (ev : List Event) (h : ORCS.readySet task completed = []) :
    ORCS.taskLoop reg subEnv cb (fuel + 1) tasksMap completed task idx ev =
      ORCS.taskEpilogue task idx completed ev ∧
    (ORCS.taskEpilogue task idx completed ev).task.status = .completed ∧
    (ORCS.taskEpilogue task idx completed ev).task.end_time = some nowStr ∧
    ∃ r, (ORCS.taskEpilogue task idx completed ev).outcome = .ok r ∧
      r.status = .completed ∧
      r.message = "Task completed with " ++ toString idx.length ++ " subtasks" := by
  refine ⟨?_, taskEpilogue_spec task idx completed ev⟩
  simp only [ORCS.taskLoop, h]
  split <;> simp

/-- Claim C2, witness: the cyclic fixture has an empty ready set, and the
amended statement instantiates there. -/
theorem claim_C2_witness :
    ORCS.readySet taskCyc [] = [] ∧
    (ORCS.taskLoop regEmpty (fun _ => envFree) true 3 [("T2", taskCyc)] []
        taskCyc [] [] = ORCS.taskEpilogue taskCyc [] [] [] ∧
      (ORCS.taskEpilogue taskCyc [] [] []).task.status = .completed ∧
      (ORCS.taskEpilogue taskCyc [] [] []).task.end_time = some nowStr ∧
      ∃ r, (ORCS.taskEpilogue taskCyc [] [] []).outcome = .ok r ∧
        r.status = .completed ∧
        r.message = "Task completed with " ++ toString ([] : List Nat).length ++
          " subtasks") :=
  ⟨by decide,
   claim_C2_amended regEmpty (fun _ => envFree) true 2 [("T2", taskCyc)] []
     taskCyc [] [] (by decide)⟩

/- ------------ Claim C10 ------------ -/

/-- The message of the ValueError that execute_subtask raises after the
tasks-map read fails with a KeyError. -/
def keyErrorWrapMessage (subtask : SubTask) : String :=
  "Error in subtask \x27" ++ subtask.title ++ "\x27: " ++
    excStr (.keyError subtask.task_id)

/-- Claim C10, amended.  Every Task returned by convert_query_to_task — on
both the clarification path and the normal path — is stored in the tasks
map under its task_id before being returned.  execute_subtask reads the
map to build the prompt context, and on an unregistered parent task the
KeyError raised at the read is caught by the blanket handler, which marks
the subtask FAILED and raises a ValueError whose message embeds the
KeyError text and whose payload is the FAILED error TaskResult (so the
escaping exception is a ValueError, not the KeyError itself). -/
theorem claim_C10_amended :
    (∀ (agents : List (String × Agent)) (task_id user_query : String)
       (pout : PlannerOutput) (dout : DependencyOutput)
       (tasksMap : List (String × Task)),
       (ORCS.convert_query_to_task agents task_id user_query pout dout
           tasksMap).2.task_id = task_id ∧
       assocLookup
           (ORCS.convert_query_to_task agents task_id user_query pout dout
             tasksMap).1 task_id =
         some (ORCS.convert_query_to_task agents task_id user_query pout dout
           tasksMap).2) ∧
    (∀ (tasksMap : List (String × Task)) (reg : ToolRegistry)
       (env : SubtaskEnv) (cb : Bool) (subtask : SubTask),
       assocLookup tasksMap subtask.task_id = none →
       (∃ tr, (ORCS.execute_subtask tasksMap reg env cb subtask).outcome =
           .error (.valueError (keyErrorWrapMessage subtask) (some tr)) ∧
           tr.status = .failed) ∧
       (ORCS.execute_subtask tasksMap reg env cb subtask).subtask.status =
         .failed) := by
  constructor
  · intro agents task_id user_query pout dout tasksMap
    simp only [ORCS.convert_query_to_task]
    split
    · constructor
      · split <;> rfl
      · split <;> exact assocLookup_assocSet_self _ _ _
    · exact ⟨rfl, assocLookup_assocSet_self _ _ _⟩
  · intro tasksMap reg env cb subtask h
    simp only [ORCS.execute_subtask, h]
    exact ⟨⟨_, rfl, rfl⟩, rfl⟩

/-- Claim C10, witness: the amended statement instantiated at the stored
ghost-plan conversion and at the empty-map execution of subA. -/
theorem claim_C10_witness :
    (convGhost.2.task_id = "T3" ∧
      assocLookup convGhost.1 "T3" = some convGhost.2) ∧
    (assocLookup ([] : List (String × Task)) subA.task_id = none ∧
      (∃ tr, outNoTask.outcome =
          .error (.valueError (keyErrorWrapMessage subA) (some tr)) ∧
          tr.status = .failed) ∧
      outNoTask.subtask.status = .failed) :=
  ⟨claim_C10_amended.1 agentsAB "T3" "q3" plannerGhost ⟨[]⟩ [],
   rfl, claim_C10_amended.2 [] regEmpty envFree true subA rfl⟩

/- ------------ Claim C4 ------------ -/

theorem splitSpecs_snd (agents : List (String × Agent)) (tid : String) :
    ∀ l : List (Nat × PlannerSubtaskSpec),
      (ORCS.splitSpecs agents tid l).2 =
        (l.filter (fun p => (assocLookup agents p.2.agent).isNone)).map
          (fun p => p.2.agent) := by
  intro l
  induction l with
  | nil => rfl
  | cons p rest ih =>
      obtain ⟨idx, sd⟩ := p
      cases h : assocLookup agents sd.agent with
      | none => simp [ORCS.splitSpecs, h, ih]
      | some agent => simp [ORCS.splitSpecs, h, ih]

theorem enumerate_filter_map {α : Type} (q : PlannerSubtaskSpec → Bool)
    (f : PlannerSubtaskSpec → α) :
    ∀ (l : List PlannerSubtaskSpec) (n : Nat),
      ((pyEnumerateFrom n l).filter (fun p => q p.2)).map (fun p => f p.2) =
        (l.filter q).map f := by
  intro l
  induction l with
  | nil => intro n; rfl
  | cons sd rest ih =>
      intro n
      cases h : q sd with
      | true => simp [pyEnumerateFrom, h, ih]
      | false => simp [pyEnumerateFrom, h, ih]

theorem splitSpecs_invalid (agents : List (String × Agent)) (tid : String)
    (specs : List PlannerSubtaskSpec) :
    (ORCS.splitSpecs agents tid (pyEnumerate specs)).2 =
      (specs.filter (fun sd => (assocLookup agents sd.agent).isNone)).map
        (fun sd => sd.agent) := by
  rw [splitSpecs_snd, pyEnumerate]
  exact enumerate_filter_map
    (fun sd => (assocLookup agents sd.agent).isNone)
    (fun sd => sd.agent) specs 0

/-- Claim C4: when any planner-produced subtask spec names an agent that
does not resolve against the registry, convert_query_to_task returns a
Task with needs_clarification true, an empty subtasks list, and a
clarification prompt enumerating exactly the invalid agent names and the
registered agent names; the dependency-resolution oracle is never
consulted on that path (the result is the same for every dependency
output). -/
theorem claim_C4 (agents : List (String × Agent)) (task_id user_query : String)
    (pout : PlannerOutput) (dep1 dep2 : DependencyOutput)
    (tasksMap : List (String × Task))
    (h : ∃ sd ∈ pout.subtasks, assocLookup agents sd.agent = none) :
    (ORCS.convert_query_to_task agents task_id user_query pout dep1
        tasksMap).2.needsClarification = true ∧
    (ORCS.convert_query_to_task agents task_id user_query pout dep1
        tasksMap).2.subtasks = [] ∧
    (ORCS.convert_query_to_task agents task_id user_query pout dep1
        tasksMap).2.clarificationPrompt = some (clarificationMessage
      ((pout.subtasks.filter
          (fun sd => (assocLookup agents sd.agent).isNone)).map
        (fun sd => sd.agent))
      (agents.map (fun kv => kv.1))) ∧
    ORCS.convert_query_to_task agents task_id user_query pout dep2 tasksMap =
      ORCS.convert_query_to_task agents task_id user_query pout dep1 tasksMap := by
  have hinv := splitSpecs_invalid agents task_id pout.subtasks
  obtain ⟨sd, hmem, hnone⟩ := h
  have hne : (ORCS.splitSpecs agents task_id (pyEnumerate pout.subtasks)).2 ≠ [] := by
    rw [hinv]
    intro hempty
    have : sd.agent ∈
        (pout.subtasks.filter
          (fun x => (assocLookup agents x.agent).isNone)).map
          (fun x => x.agent) :=
      List.mem_map_of_mem _ (List.mem_filter.mpr ⟨hmem, by simp [hnone]⟩)
    rw [hempty] at this
    exact absurd this (List.not_mem_nil _)
  rcases hsp : ORCS.splitSpecs agents task_id (pyEnumerate pout.subtasks) with
    ⟨subs, inv⟩
  rw [hsp] at hne hinv
  simp only at hne hinv
  have hinvEmpty : inv.isEmpty = false := by
    cases inv with
    | nil => exact absurd rfl hne
    | cons a l => rfl
  simp only [ORCS.convert_query_to_task, hsp, hinvEmpty, Bool.false_eq_true,
    if_false]
  refine ⟨by trivial, by trivial, by rw [hinv], by trivial⟩

/-- Claim C4, witness: instantiated at the ghost plan against the two
registered agents. -/
theorem claim_C4_witness :
    (∃ sd ∈ plannerGhost.subtasks, assocLookup agentsAB sd.agent = none) ∧
    convGhost.2.needsClarification = true ∧
    convGhost.2.subtasks = [] ∧
    convGhost.2.clarificationPrompt = some (clarificationMessage
      ((plannerGhost.subtasks.filter
          (fun sd => (assocLookup agentsAB sd.agent).isNone)).map
        (fun sd => sd.agent))
      (agentsAB.map (fun kv => kv.1))) ∧
    ORCS.convert_query_to_task agentsAB "T3" "q3" plannerGhost depGhost [] =
      convGhost :=
  ⟨⟨specGhost, by decide, rfl⟩,
   claim_C4 agentsAB "T3" "q3" plannerGhost ⟨[]⟩ depGhost []
     ⟨specGhost, by decide, rfl⟩⟩

/- ------------ Claim C9 ------------ -/

theorem depsSet_subtask_id (s : SubTask) (x : List TaskDependency) :
    ({ s with dependencies := x } : SubTask).subtask_id = s.subtask_id := by
  cases s; rfl

theorem depsSet_self (s : SubTask) :
    ({ s with dependencies := s.dependencies } : SubTask) = s := by
  cases s; rfl

theorem attachDependencies_get? :
    ∀ (deps : List TaskDependency) (subs : List SubTask) (k : Nat),
      (ORCS.attachDependencies subs deps).get? k =
        (subs.get? k).map (fun s0 =>
          { s0 with dependencies :=
              s0.dependencies ++
                deps.filter (fun d => d.subtask_id = s0.subtask_id) }) := by
  intro deps
  induction deps with
  | nil =>
      intro subs k
      simp only [ORCS.attachDependencies, List.filter_nil, List.append_nil]
      cases h : subs.get? k with
      | none => rfl
      | some s0 => simp [depsSet_self]
  | cons dep rest ih =>
      intro subs k
      simp only [ORCS.attachDependencies]
      rw [ih, List.get?_map]
      cases h : subs.get? k with
      | none => rfl
      | some s =>
          simp only [Option.map_some']
          by_cases hid : s.subtask_id = dep.subtask_id
          · have hpos : dep.subtask_id = s.subtask_id := hid.symm
            simp only [hid, if_true]
            cases s
            simp_all [List.filter_cons, List.append_assoc]
          · simp only [hid, if_false]
            have hneg : ¬ dep.subtask_id = s.subtask_id := fun hh => hid hh.symm
            cases s
            simp_all [List.filter_cons]

theorem splitSpecs_deps_nil (agents : List (String × Agent)) (tid : String) :
    ∀ (l : List (Nat × PlannerSubtaskSpec)) (s : SubTask),
      s ∈ (ORCS.splitSpecs agents tid l).1 → s.dependencies = [] := by
  intro l
  induction l with
  | nil => intro s hs; exact absurd hs (List.not_mem_nil _)
  | cons p rest ih =>
      obtain ⟨idx, sd⟩ := p
      intro s hs
      cases h : assocLookup agents sd.agent with
      | none =>
          rw [ORCS.splitSpecs, h] at hs
          exact ih s hs
      | some agent =>
          rw [ORCS.splitSpecs, h] at hs
          rcases List.mem_cons.mp hs with heq | hmem
          · rw [heq]; rfl
          · exact ih s hmem

theorem dependenciesOf_task_id :
    ∀ (l : List DepInfo), ∀ d ∈ ORCS.dependenciesOf l, d.task_id ≠ "" := by
  intro l
  induction l with
  | nil => intro d hd; exact absurd hd (List.not_mem_nil _)
  | cons info rest ih =>
      intro d hd
      by_cases h : info.depends_on.isEmpty
      · rw [ORCS.dependenciesOf, if_pos h] at hd
        exact ih d hd
      · rw [ORCS.dependenciesOf, if_neg h] at hd
        rcases List.mem_cons.mp hd with heq | hmem
        · rw [heq]
          intro habs
          exact h ((String.isEmpty_iff info.depends_on).mpr habs)
        · exact ih d hmem

/-- Claim C9, amended.  get_dependencies drops every entry whose
depends_on is empty (edges always carry a non-empty upstream id).  On the
normal planner path, each remaining dependency is appended to exactly the
subtasks whose id equals its downstream subtask_id field — dependencies
whose downstream id matches no subtask are silently dropped, with no
exception raised — but the upstream (depends_on) id is never validated, so
an edge naming an unknown upstream id is still attached to its known
downstream subtask. -/
theorem claim_C9_amended (agents : List (String × Agent)) (tid uq : String)
    (pout : PlannerOutput) (dout : DependencyOutput)
    (tasksMap : List (String × Task))
    (hvalid : (ORCS.splitSpecs agents tid (pyEnumerate pout.subtasks)).2 = []) :
    (∀ d ∈ ORCS.get_dependencies dout, d.task_id ≠ "") ∧
    (∀ k, (ORCS.convert_query_to_task agents tid uq pout dout
          tasksMap).2.subtasks.get? k =
        ((ORCS.splitSpecs agents tid (pyEnumerate pout.subtasks)).1.get? k).map
          (fun s0 => { s0 with
                       dependencies := (ORCS.get_dependencies dout).filter
                         (fun d => d.subtask_id = s0.subtask_id) })) ∧
    (∀ d ∈ ORCS.get_dependencies dout, ∀ k s,
        (ORCS.convert_query_to_task agents tid uq pout dout
            tasksMap).2.subtasks.get? k = some s →
        d.subtask_id ≠ s.subtask_id → d ∉ s.dependencies) := by
  have hget : ∀ k, (ORCS.convert_query_to_task agents tid uq pout dout
        tasksMap).2.subtasks.get? k =
      ((ORCS.splitSpecs agents tid (pyEnumerate pout.subtasks)).1.get? k).map
        (fun s0 => { s0 with
                     dependencies := (ORCS.get_dependencies dout).filter
                       (fun d => d.subtask_id = s0.subtask_id) }) := by
    intro k
    rcases hsp : ORCS.splitSpecs agents tid (pyEnumerate pout.subtasks) with
      ⟨subs, inv⟩
    rw [hsp] at hvalid
    simp only at hvalid
    subst hvalid
    simp only [ORCS.convert_query_to_task, hsp, List.isEmpty_nil, if_true]
    cases hsubs : subs with
    | nil => rfl
    | cons s0 rest =>
        simp only [List.isEmpty_cons, Bool.false_eq_true, if_false]
        rw [attachDependencies_get?]
        cases hk : (s0 :: rest).get? k with
        | none => rfl
        | some s1 =>
            have hdeps : s1.dependencies = [] := by
              apply splitSpecs_deps_nil agents tid (pyEnumerate pout.subtasks)
              have := List.get?_mem hk
              rw [hsp, hsubs]
              exact this
            simp [hdeps]
  refine ⟨dependenciesOf_task_id _, hget, ?_⟩
  intro d hd k s hs hne hmem
  rw [hget k] at hs
  cases hk : ((ORCS.splitSpecs agents tid
      (pyEnumerate pout.subtasks)).1.get? k) with
  | none => rw [hk] at hs; exact Option.noConfusion hs
  | some s0 =>
      rw [hk] at hs
      have hs' : s = { s0 with
                       dependencies := (ORCS.get_dependencies dout).filter
                         (fun dd => dd.subtask_id = s0.subtask_id) } := by
        simpa using hs.symm
      rw [hs'] at hmem hne
      simp only [depsSet_subtask_id] at hne
      have := (List.mem_filter.mp hmem).2
      simp only [decide_eq_true_eq] at this
      exact hne this

/-- Claim C9, witness: the amended statement instantiated at the two-spec
plan against depGhost, whose ghost edge ends up on T6_sub_1. -/
theorem claim_C9_witness :
    (ORCS.splitSpecs [("WebSearchAgent", agentA)] "T6"
        (pyEnumerate plannerTwo.subtasks)).2 = [] ∧
    (∀ d ∈ ORCS.get_dependencies depGhost, d.task_id ≠ "") ∧
    (∀ k, convTwo.2.subtasks.get? k =
        ((ORCS.splitSpecs [("WebSearchAgent", agentA)] "T6"
            (pyEnumerate plannerTwo.subtasks)).1.get? k).map
          (fun s0 => { s0 with
                       dependencies := (ORCS.get_dependencies depGhost).filter
                         (fun d => d.subtask_id = s0.subtask_id) })) ∧
    (∀ d ∈ ORCS.get_dependencies depGhost, ∀ k s,
        convTwo.2.subtasks.get? k = some s →
        d.subtask_id ≠ s.subtask_id → d ∉ s.dependencies) :=
  ⟨by decide,
   claim_C9_amended [("WebSearchAgent", agentA)] "T6" "q6" plannerTwo depGhost
     [] (by decide)⟩

/- ------------ Claim C8 ------------ -/

theorem add_interaction_status (s : SubTask) (a c : String)
    (t : Option (List ToolCallResult)) :
    (s.add_interaction a c t).status = s.status := by
  cases s; rfl

theorem add_interaction_subtask_id (s : SubTask) (a c : String)
    (t : Option (List ToolCallResult)) :
    (s.add_interaction a c t).subtask_id = s.subtask_id := by
  cases s; rfl

theorem add_interaction_agent (s : SubTask) (a c : String)
    (t : Option (List ToolCallResult)) :
    (s.add_interaction a c t).agent = s.agent := by
  cases s; rfl

theorem add_interaction_history (s : SubTask) (a c : String)
    (t : Option (List ToolCallResult)) :
    (s.add_interaction a c t).history = s.history ++
      [{ agent_name := a, content := c, tool_calls := t,
         timestamp := nowStr }] := by
  cases s; rfl

theorem roundSubtask_status (st : SubTask) (r : LMResponse) :
    (ORCS.roundSubtask st r).status = st.status := by
  unfold ORCS.roundSubtask
  cases r.content with
  | none => rfl
  | some c =>
      by_cases h : c.isEmpty <;> simp [h, add_interaction_status]

theorem roundSubtask_subtask_id (st : SubTask) (r : LMResponse) :
    (ORCS.roundSubtask st r).subtask_id = st.subtask_id := by
  unfold ORCS.roundSubtask
  cases r.content with
  | none => rfl
  | some c =>
      by_cases h : c.isEmpty <;> simp [h, add_interaction_subtask_id]

theorem toolCallsOver_results (reg : ToolRegistry) (cb : Bool) (sid : String) :
    ∀ (tcs : List ToolCallReq) (coll : List (String × Value)) (ev : List Event),
      (toolCallsOver reg cb sid tcs coll ev).1 =
        tcs.map (ORCS.execute_tool_call reg) := by
  intro tcs
  induction tcs with
  | nil => intro coll ev; rfl
  | cons tc rest ih =>
      intro coll ev
      simp only [toolCallsOver, List.map_cons]
      rcases h : toolCallsOver reg cb sid rest
        (assocSet coll tc.name (Value.dict
          [("result", strDictValue (ORCS.execute_tool_call reg tc).result.to_dict),
           ("error", optStrValue (ORCS.execute_tool_call reg tc).error),
           ("timestamp", .vStr (ORCS.execute_tool_call reg tc).timestamp)]))
        (emit cb (emit cb ev (.status (some sid) .in_progress
            ("Using " ++ tc.name ++ " to gather information...")
            (some (.toolCallStart tc.name tc.arguments))))
          (.status (some sid) .in_progress
            ("Information gathered from " ++ tc.name)
            (some (.toolResult tc.name
              (ORCS.execute_tool_call reg tc).result.to_dict
              (ORCS.execute_tool_call reg tc).error)))) with ⟨results, coll2, ev2⟩
      have hres : results = List.map (ORCS.execute_tool_call reg) rest := by
        have hfst := congrArg (fun t => t.1) h
        simp only at hfst
        rw [← hfst, ih]
      simp [hres]

theorem handle_tool_calls_spec (reg : ToolRegistry) (cb : Bool) (st : SubTask)
    (response : LMResponse) (coll : List (String × Value)) (ev : List Event)
    (hne : response.tool_calls ≠ []) :
    (ORCS.handle_tool_calls reg cb st response coll ev).tool_results =
      response.tool_calls.map (ORCS.execute_tool_call reg) ∧
    (ORCS.handle_tool_calls reg cb st response coll ev).subtask =
      st.add_interaction "system" "Tool execution results"
        (some (response.tool_calls.map (ORCS.execute_tool_call reg))) ∧
    (ORCS.handle_tool_calls reg cb st response coll ev).subtask.status =
      st.status ∧
    (ORCS.handle_tool_calls reg cb st response coll ev).messages_to_add.length =
      response.tool_calls.length + 1 ∧
    (∀ msg ∈ (ORCS.handle_tool_calls reg cb st response coll
        ev).messages_to_add.tail, msg.role = "tool") := by
  have hie : response.tool_calls.isEmpty = false := by
    cases h : response.tool_calls with
    | nil => exact absurd h hne
    | cons a l => rfl
  have hres := toolCallsOver_results reg cb st.subtask_id response.tool_calls
    coll ev
  rcases htc : toolCallsOver reg cb st.subtask_id response.tool_calls coll ev
    with ⟨results, coll2, ev2⟩
  rw [htc] at hres
  simp only at hres
  subst hres
  simp only [ORCS.handle_tool_calls, hie, Bool.false_eq_true, if_false, htc]
  refine ⟨by trivial, by trivial, add_interaction_status _ _ _ _, ?_, ?_⟩
  · simp [List.length_zip, List.length_map, Nat.min_self]
  · intro msg hmsg
    simp only [List.tail_cons] at hmsg
    obtain ⟨p, _, hp⟩ := List.mem_map.mp hmsg
    rw [← hp]

/-- Claim C8: a tool invocation error never aborts the round loop.  An
unregistered tool name yields a synthesized error ToolCallResult; a
raising registered tool yields an error ToolCallResult; in both cases the
result is recorded (one ToolCallResult per requested call), appended to
the subtask history as an interaction and to the conversation as one tool
message per call with the subtask status untouched, and the loop proceeds
to the next round — a tool error alone never sets FAILED. -/
theorem claim_C8 :
    (∀ (reg : ToolRegistry) (tc : ToolCallReq),
       assocLookup reg.functions tc.name = none →
       ORCS.execute_tool_call reg tc =
         { tool_name := tc.name, arguments := ⟨[]⟩, result := ⟨[]⟩,
           error := some ("Error executing tool " ++ tc.name ++
             ": Tool \x27" ++ tc.name ++ "\x27 not found in registry"),
           timestamp := nowStr }) ∧
    (∀ (reg : ToolRegistry) (tc : ToolCallReq)
       (f : List (String × Value) → Except String (List (String × Value)))
       (m : String),
       assocLookup reg.functions tc.name = some f →
       f tc.arguments = .error m →
       ORCS.execute_tool_call reg tc =
         { tool_name := tc.name,
           arguments := ⟨tc.arguments.map (fun kv => ⟨kv.1, pyStr kv.2⟩)⟩,
           result := ⟨[]⟩,
           error := some ("Error executing tool " ++ tc.name ++ ": " ++ m),
           timestamp := nowStr }) ∧
    (∀ (reg : ToolRegistry) (cb : Bool) (st : SubTask) (response : LMResponse)
       (coll : List (String × Value)) (ev : List Event),
       response.tool_calls ≠ [] →
       (ORCS.handle_tool_calls reg cb st response coll ev).tool_results =
         response.tool_calls.map (ORCS.execute_tool_call reg) ∧
       (ORCS.handle_tool_calls reg cb st response coll ev).subtask =
         st.add_interaction "system" "Tool execution results"
           (some (response.tool_calls.map (ORCS.execute_tool_call reg))) ∧
       (ORCS.handle_tool_calls reg cb st response coll ev).subtask.status =
         st.status ∧
       (ORCS.handle_tool_calls reg cb st response coll
           ev).messages_to_add.length = response.tool_calls.length + 1 ∧
       (∀ msg ∈ (ORCS.handle_tool_calls reg cb st response coll
           ev).messages_to_add.tail, msg.role = "tool")) ∧
    (∀ (reg : ToolRegistry) (env : SubtaskEnv) (cb : Bool)
       (agentTools : List String) (fuel iteration : Nat)
       (messages : List ChatMessage) (coll : List (String × Value))
       (st : SubTask) (ev : List Event),
       (env.responses (iteration + 1)).tool_calls ≠ [] →
       iteration + 1 ≠ MAX_ITERATIONS →
       (ORCS.subtaskLoop reg env cb agentTools (fuel + 1) iteration messages
           coll st ev =
         ORCS.subtaskLoop reg env cb agentTools fuel (iteration + 1)
           (messages ++ (ORCS.handle_tool_calls reg cb
             (ORCS.roundSubtask st (env.responses (iteration + 1)))
             (env.responses (iteration + 1)) coll
             (ORCS.roundPrefixEvents cb st agentTools ev)).messages_to_add)
           (ORCS.handle_tool_calls reg cb
             (ORCS.roundSubtask st (env.responses (iteration + 1)))
             (env.responses (iteration + 1)) coll
             (ORCS.roundPrefixEvents cb st agentTools ev)).collected_data
           (ORCS.handle_tool_calls reg cb
             (ORCS.roundSubtask st (env.responses (iteration + 1)))
             (env.responses (iteration + 1)) coll
             (ORCS.roundPrefixEvents cb st agentTools ev)).subtask
           (ORCS.handle_tool_calls reg cb
             (ORCS.roundSubtask st (env.responses (iteration + 1)))
             (env.responses (iteration + 1)) coll
             (ORCS.roundPrefixEvents cb st agentTools ev)).events) ∧
       (ORCS.handle_tool_calls reg cb
           (ORCS.roundSubtask st (env.responses (iteration + 1)))
           (env.responses (iteration + 1)) coll
           (ORCS.roundPrefixEvents cb st agentTools ev)).subtask.status =
         st.status) := by
  refine ⟨?_, ?_, ?_, ?_⟩
  · intro reg tc h
    simp [ORCS.execute_tool_call, h]
  · intro reg tc f m hf hm
    simp [ORCS.execute_tool_call, hf, hm]
  · intro reg cb st response coll ev hne
    exact handle_tool_calls_spec reg cb st response coll ev hne
  · intro reg env cb agentTools fuel iteration messages coll st ev hne hmax
    have hspec := handle_tool_calls_spec reg cb
      (ORCS.roundSubtask st (env.responses (iteration + 1)))
      (env.responses (iteration + 1)) coll
      (ORCS.roundPrefixEvents cb st agentTools ev) hne
    have hstat := roundSubtask_status st (env.responses (iteration + 1))
    have hie : (ORCS.handle_tool_calls reg cb
        (ORCS.roundSubtask st (env.responses (iteration + 1)))
        (env.responses (iteration + 1)) coll
        (ORCS.roundPrefixEvents cb st agentTools ev)).tool_results.isEmpty =
        false := by
      rw [hspec.1]
      cases hcase : (env.responses (iteration + 1)).tool_calls with
      | nil => exact absurd hcase hne
      | cons a l => simp
    refine ⟨?_, by rw [hspec.2.2.1, hstat]⟩
    simp only [ORCS.subtaskLoop, hie, Bool.false_eq_true, if_false, hmax]

/-- A tool call naming a tool absent from every registry fixture. -/
def tcMissing : ToolCallReq := ⟨"x", "missing", []⟩

/-- A registered tool that always raises. -/
def failFn (_args : List (String × Value)) :
    Except String (List (String × Value)) := .error "boom"

/-- A registry holding only the raising tool. -/
def regFail : ToolRegistry := ⟨[], [("bad", failFn)]⟩

/-- A tool call hitting the raising tool. -/
def tcBad : ToolCallReq := ⟨"id1", "bad", [("a", .vStr "1")]⟩

/-- A response requesting the raising tool. -/
def respBad : LMResponse := { content := none, tool_calls := [tcBad] }

/-- Claim C8, witness: the four parts instantiated at an unknown tool
name, a raising registered tool, a one-call response, and the first round
of the always-tool-calling loop. -/
theorem claim_C8_witness :
    ORCS.execute_tool_call regEmpty tcMissing =
      { tool_name := tcMissing.name, arguments := ⟨[]⟩, result := ⟨[]⟩,
        error := some ("Error executing tool " ++ tcMissing.name ++
          ": Tool \x27" ++ tcMissing.name ++ "\x27 not found in registry"),
        timestamp := nowStr } ∧
    ORCS.execute_tool_call regFail tcBad =
      { tool_name := tcBad.name,
        arguments := ⟨tcBad.arguments.map (fun kv => ⟨kv.1, pyStr kv.2⟩)⟩,
        result := ⟨[]⟩,
        error := some ("Error executing tool " ++ tcBad.name ++ ": " ++ "boom"),
        timestamp := nowStr } ∧
    (ORCS.handle_tool_calls regFail true subA respBad [] []).tool_results =
      respBad.tool_calls.map (ORCS.execute_tool_call regFail) ∧
    (ORCS.handle_tool_calls regFail true subA respBad [] []).subtask.status =
      subA.status ∧
    (ORCS.handle_tool_calls regTen true
        (ORCS.roundSubtask subA (envTool.responses (0 + 1)))
        (envTool.responses (0 + 1)) []
        (ORCS.roundPrefixEvents true subA [] [])).subtask.status =
      subA.status :=
  ⟨claim_C8.1 regEmpty tcMissing rfl,
   claim_C8.2.1 regFail tcBad failFn "boom" rfl rfl,
   (claim_C8.2.2.1 regFail true subA respBad [] [] (by decide)).1,
   (claim_C8.2.2.1 regFail true subA respBad [] [] (by decide)).2.2.1,
   (claim_C8.2.2.2 regTen envTool true [] 2 0 [] [] subA [] (by decide)
     (by decide)).2⟩

/- ------------ Claim C7 ------------ -/

theorem roundSubtask_agent (st : SubTask) (r : LMResponse) :
    (ORCS.roundSubtask st r).agent = st.agent := by
  unfold ORCS.roundSubtask
  cases r.content with
  | none => rfl
  | some c =>
      by_cases h : c.isEmpty <;> simp [h, add_interaction_agent]

/-- Claim C7, amended.  When the model requests no tool calls on the
first round, the finalization step always runs: the structured-output
parse request is issued with the agent response_format — also when the
agent has none — and on a successful parse the result is the parsed
structured object packaged with the tool-call history, never the raw free
text returned as-is. -/
theorem claim_C7_amended (tasksMap : List (String × Task)) (reg : ToolRegistry)
    (env : SubtaskEnv) (subtask : SubTask) (tk : Task)
    (hlk : assocLookup tasksMap subtask.task_id = some tk)
    (hnc : (env.responses 1).tool_calls = []) :
    (ORCS.execute_subtask tasksMap reg env true subtask).events.get? 4 =
      some (.finalizeRequest subtask.subtask_id
        subtask.agent.response_format) ∧
    (∀ v, env.finalize = .ok v →
      (ORCS.execute_subtask tasksMap reg env true subtask).outcome = .ok
        { status := .completed,
          data := Value.dict
            [("final_response", v), ("tool_call_history", Value.dict [])],
          message := "Task completed successfully", timestamp := nowStr }) := by
  have h10 : MAX_ITERATIONS = 9 + 1 := rfl
  have hie : (env.responses (0 + 1)).tool_calls.isEmpty = true := by
    simp only [Nat.zero_add, hnc, List.isEmpty_nil]
  simp only [ORCS.execute_subtask, hlk, h10, ORCS.subtaskLoop,
    ORCS.handle_tool_calls, hie, if_true, List.isEmpty_nil,
    ORCS.finalize_response, Nat.zero_add]
  cases hf : env.finalize with
  | error m =>
      constructor
      · simp [emit, ORCS.roundPrefixEvents, ORCS.subtaskExceptBlock,
          roundSubtask_subtask_id, roundSubtask_agent, List.append_assoc,
          List.get?]
      · intro v hv
        exact absurd hv (by simp)
  | ok v0 =>
      constructor
      · simp [emit, ORCS.roundPrefixEvents, roundSubtask_subtask_id,
          roundSubtask_agent, List.append_assoc, List.get?]
      · intro v hv
        have : v0 = v := by injection hv
        subst this
        simp [roundSubtask_status]

/-- Claim C7, witness: the amended statement instantiated at the
schema-less free-text fixture. -/
theorem claim_C7_witness :
    assocLookup tasksMapA subA.task_id = some taskA ∧
    (envFree.responses 1).tool_calls = [] ∧
    (outA.events.get? 4 =
        some (.finalizeRequest subA.subtask_id subA.agent.response_format) ∧
      (∀ v, envFree.finalize = .ok v →
        outA.outcome = .ok
          { status := .completed,
            data := Value.dict
              [("final_response", v), ("tool_call_history", Value.dict [])],
            message := "Task completed successfully", timestamp := nowStr })) :=
  ⟨rfl, rfl, claim_C7_amended tasksMapA regEmpty envFree subA taskA rfl rfl⟩

/- ------------ Claim C1 ------------ -/

theorem subtaskLoop_done_spec (reg : ToolRegistry) (env : SubtaskEnv)
    (cb : Bool) (agentTools : List String) :
    ∀ (fuel iteration : Nat) (messages : List ChatMessage)
      (coll : List (String × Value)) (st : SubTask) (ev : List Event)
      (r : TaskResult) (st' : SubTask) (ev' : List Event),
      ORCS.subtaskLoop reg env cb agentTools fuel iteration messages coll st
          ev = .done r st' ev' →
      r.status = .completed ∧ st'.status = .completed := by
  intro fuel
  induction fuel with
  | zero =>
      intro iteration messages coll st ev r st' ev' h
      exact absurd h (by simp [ORCS.subtaskLoop])
  | succ f ih =>
      intro iteration messages coll st ev r st' ev' h
      simp only [ORCS.subtaskLoop] at h
      split at h
      · simp only [ORCS.finalize_response] at h
        split at h
        · exact absurd h (by simp)
        · injection h with hr hst hev
          subst hr
          subst hst
          exact ⟨rfl, rfl⟩
      · split at h
        · exact absurd h (by simp)
        · exact ih _ _ _ _ _ r st' ev' h

theorem subtaskLoop_no_done (reg : ToolRegistry) (env : SubtaskEnv)
    (cb : Bool) (agentTools : List String) :
    ∀ (fuel iteration : Nat) (messages : List ChatMessage)
      (coll : List (String × Value)) (st : SubTask) (ev : List Event),
      fuel + iteration ≤ MAX_ITERATIONS →
      (∀ i, iteration < i → i ≤ MAX_ITERATIONS →
        (env.responses i).tool_calls ≠ []) →
      ∀ (r : TaskResult) (st' : SubTask) (ev' : List Event),
        ORCS.subtaskLoop reg env cb agentTools fuel iteration messages coll
          st ev ≠ .done r st' ev' := by
  intro fuel
  induction fuel with
  | zero =>
      intro iteration messages coll st ev _ _ r st' ev'
      simp [ORCS.subtaskLoop]
  | succ f ih =>
      intro iteration messages coll st ev hle hcalls r st' ev'
      have hne : (env.responses (iteration + 1)).tool_calls ≠ [] :=
        hcalls (iteration + 1) (Nat.lt_succ_self iteration) (by omega)
      have hie : (ORCS.handle_tool_calls reg cb
          (ORCS.roundSubtask st (env.responses (iteration + 1)))
          (env.responses (iteration + 1)) coll
          (ORCS.roundPrefixEvents cb st agentTools ev)).tool_results.isEmpty =
          false := by
        rw [(handle_tool_calls_spec reg cb _ _ coll _ hne).1]
        cases hcase : (env.responses (iteration + 1)).tool_calls with
        | nil => exact absurd hcase hne
        | cons a l => simp
      simp only [ORCS.subtaskLoop, hie, Bool.false_eq_true, if_false]
      split
      · simp
      · exact ih (iteration + 1) _ _ _ _ (by omega)
          (fun i hi hile => hcalls i (by omega) hile) r st' ev'

theorem subtaskExceptBlock_char (cb : Bool) (st : SubTask)
    (coll : List (String × Value)) (iteration : Nat) (ev : List Event)
    (e0 : PyExc) :
    ∀ e, (ORCS.subtaskExceptBlock cb st coll iteration ev e0).outcome =
        .error e →
      ∃ msg tr, e = .valueError msg (some tr) ∧ tr.status = .failed ∧
        (∃ hist, dataLookup tr.data "tool_call_history" =
          some (Value.dict hist)) ∧
        (ORCS.subtaskExceptBlock cb st coll iteration ev e0).subtask.status =
          .failed := by
  intro e h
  injection h with he
  exact ⟨_, _, he.symm, rfl, ⟨coll, rfl⟩, rfl⟩

/-- Claim C1, amended.  A normal return of execute_subtask always carries
a COMPLETED result with the subtask marked COMPLETED (the successful
finalization path); every other exit — finalization parse failure or the
iteration ceiling, regardless of how many tool calls produced non-error
results — marks the subtask FAILED and raises a ValueError whose payload
TaskResult has status FAILED and carries the accumulated tool-call results
under the tool_call_history key of its data; in particular, when every
round up to the ceiling requests tool calls, the call always raises. -/
theorem claim_C1_amended :
    (∀ (tasksMap : List (String × Task)) (reg : ToolRegistry)
       (env : SubtaskEnv) (cb : Bool) (subtask : SubTask),
      (∀ r, (ORCS.execute_subtask tasksMap reg env cb subtask).outcome =
          .ok r →
        r.status = .completed ∧
        (ORCS.execute_subtask tasksMap reg env cb subtask).subtask.status =
          .completed) ∧
      (∀ e, (ORCS.execute_subtask tasksMap reg env cb subtask).outcome =
          .error e →
        ∃ msg tr, e = .valueError msg (some tr) ∧ tr.status = .failed ∧
          (∃ hist, dataLookup tr.data "tool_call_history" =
            some (Value.dict hist)) ∧
          (ORCS.execute_subtask tasksMap reg env cb subtask).subtask.status =
            .failed)) ∧
    (∀ (tasksMap : List (String × Task)) (reg : ToolRegistry)
       (env : SubtaskEnv) (cb : Bool) (subtask : SubTask) (tk : Task),
      assocLookup tasksMap subtask.task_id = some tk →
      (List.range MAX_ITERATIONS).all
          (fun j => !((env.responses (j + 1)).tool_calls.isEmpty)) = true →
      ∃ e, (ORCS.execute_subtask tasksMap reg env cb subtask).outcome =
        .error e) := by
  constructor
  · intro tasksMap reg env cb subtask
    cases hlk : assocLookup tasksMap subtask.task_id with
    | none =>
        constructor
        · intro r h
          rw [ORCS.execute_subtask] at h
          simp only [hlk] at h
          exact absurd h (by simp [ORCS.subtaskExceptBlock])
        · intro e h
          rw [ORCS.execute_subtask] at h
          simp only [hlk] at h
          have := subtaskExceptBlock_char _ _ _ _ _ _ e h
          rw [ORCS.execute_subtask]
          simp only [hlk]
          exact this
    | some tk =>
        constructor
        · intro r h
          rw [ORCS.execute_subtask] at h
          simp only [hlk] at h
          rcases hsl : ORCS.subtaskLoop reg env cb
              (reg.get_agent_tools subtask.agent) MAX_ITERATIONS 0
              [{ role := "system", content := some subtask.agent.instructions },
               { role := "user", content := some (subtaskUserPrompt tk
                 { subtask with status := .in_progress, start_time := some nowStr }
                 (subtask.dependencies.map (fun dep => dep.subtask_id))) }]
              []
              { subtask with status := .in_progress, start_time := some nowStr }
              (emit cb [] (.status (some subtask.subtask_id) .in_progress
                ("Agent " ++ subtask.agent.name ++
                  " is analyzing the task...") none)) with
            ⟨r0, st0, ev0⟩ | ⟨e0, st0, coll0, it0, ev0⟩
          · rw [hsl] at h
            simp only at h
            have hspec := subtaskLoop_done_spec reg env cb
              (reg.get_agent_tools subtask.agent) _ _ _ _ _ _ _ _ _ hsl
            have hr : r0 = r := by injection h
            subst hr
            refine ⟨hspec.1, ?_⟩
            rw [ORCS.execute_subtask]
            simp only [hlk, hsl]
            exact hspec.2
          · rw [hsl] at h
            exact absurd h (by simp [ORCS.subtaskExceptBlock])
        · intro e h
          rw [ORCS.execute_subtask] at h
          simp only [hlk] at h
          rcases hsl : ORCS.subtaskLoop reg env cb
              (reg.get_agent_tools subtask.agent) MAX_ITERATIONS 0
              [{ role := "system", content := some subtask.agent.instructions },
               { role := "user", content := some (subtaskUserPrompt tk
                 { subtask with status := .in_progress, start_time := some nowStr }
                 (subtask.dependencies.map (fun dep => dep.subtask_id))) }]
              []
              { subtask with status := .in_progress, start_time := some nowStr }
              (emit cb [] (.status (some subtask.subtask_id) .in_progress
                ("Agent " ++ subtask.agent.name ++
                  " is analyzing the task...") none)) with
            ⟨r0, st0, ev0⟩ | ⟨e0, st0, coll0, it0, ev0⟩
          · rw [hsl] at h
            exact absurd h (by simp)
          · rw [hsl] at h
            have := subtaskExceptBlock_char _ _ _ _ _ _ e h
            rw [ORCS.execute_subtask]
            simp only [hlk, hsl]
            exact this
  · intro tasksMap reg env cb subtask tk hlk hall
    have hcalls : ∀ i, 0 < i → i ≤ MAX_ITERATIONS →
        (env.responses i).tool_calls ≠ [] := by
      intro i hpos hle
      have hmem : i - 1 ∈ List.range MAX_ITERATIONS := by
        apply List.mem_range.mpr
        omega
      have hj := List.all_eq_true.mp hall _ hmem
      have hi : i - 1 + 1 = i := by omega
      rw [hi] at hj
      intro habs
      rw [habs] at hj
      simp at hj
    rw [ORCS.execute_subtask]
    simp only [hlk]
    rcases hsl : ORCS.subtaskLoop reg env cb
        (reg.get_agent_tools subtask.agent) MAX_ITERATIONS 0
        [{ role := "system", content := some subtask.agent.instructions },
         { role := "user", content := some (subtaskUserPrompt tk
           { subtask with status := .in_progress, start_time := some nowStr }
           (subtask.dependencies.map (fun dep => dep.subtask_id))) }]
        []
        { subtask with status := .in_progress, start_time := some nowStr }
        (emit cb [] (.status (some subtask.subtask_id) .in_progress
          ("Agent " ++ subtask.agent.name ++
            " is analyzing the task...") none)) with
      ⟨r0, st0, ev0⟩ | ⟨e0, st0, coll0, it0, ev0⟩
    · exact absurd hsl (subtaskLoop_no_done reg env cb _ MAX_ITERATIONS 0 _ _
        _ _ (by omega) (fun i hi hile => hcalls i hi hile) r0 st0 ev0)
    · exact ⟨_, rfl⟩

/-- Claim C1, witness: the characterization applied to the free-text
success run, and the ceiling conjunct applied to the ten-round
tool-calling run. -/
theorem claim_C1_witness :
    (resA.status = .completed ∧ outA.subtask.status = .completed) ∧
    (∃ e, outTool.outcome = .error e) :=
  ⟨(claim_C1_amended.1 tasksMapA regEmpty envFree true subA).1 resA rfl,
   claim_C1_amended.2 tasksMapA regTen envTool true subA taskA rfl (by decide)⟩

/- ------------ Claim C6 ------------ -/

theorem statusSet_self (s : SubTask) :
    ({ s with status := s.status } : SubTask) = s := by
  cases s; rfl

theorem statusSet_subtask_id (s : SubTask) (x : TaskStatus) :
    ({ s with status := x } : SubTask).subtask_id = s.subtask_id := by
  cases s; rfl

theorem statusSet_status (s : SubTask) (x : TaskStatus) :
    ({ s with status := x } : SubTask).status = x := by
  cases s; rfl

theorem failWave_length (cb : Bool) (e : PyExc) :
    ∀ (pending : List (Nat × SubTask)) (task : Task) (ev : List Event),
      (ORCS.failWave cb e pending task ev).1.subtasks.length =
        task.subtasks.length := by
  intro pending
  induction pending with
  | nil => intro task ev; rfl
  | cons p rest ih =>
      obtain ⟨i, s0⟩ := p
      intro task ev
      simp only [ORCS.failWave]
      cases hg : task.subtasks.get? i with
      | none => exact ih task ev
      | some sub =>
          by_cases hc : sub.status = .completed
          · simp only [hc, if_true]
            exact ih task ev
          · simp only [hc, Bool.false_eq_true, if_false]
            rw [ih]
            simp [Task.setSubtask]

theorem failWave_ev_mono (cb : Bool) (e : PyExc) :
    ∀ (pending : List (Nat × SubTask)) (task : Task) (ev : List Event)
      (x : Event), x ∈ ev → x ∈ (ORCS.failWave cb e pending task ev).2 := by
  intro pending
  induction pending with
  | nil => intro task ev x hx; exact hx
  | cons p rest ih =>
      obtain ⟨i, s0⟩ := p
      intro task ev x hx
      simp only [ORCS.failWave]
      cases hg : task.subtasks.get? i with
      | none => exact ih task ev x hx
      | some sub =>
          by_cases hc : sub.status = .completed
          · simp only [hc, if_true]
            exact ih task ev x hx
          · simp only [hc, Bool.false_eq_true, if_false]
            apply ih
            unfold emit
            cases cb with
            | false => exact hx
            | true => exact List.mem_append_left _ hx

theorem failWave_step_none (cb : Bool) (e : PyExc) (j : Nat) (s0 : SubTask)
    (rest : List (Nat × SubTask)) (task : Task) (ev : List Event)
    (hgj : task.subtasks.get? j = none) :
    ORCS.failWave cb e ((j, s0) :: rest) task ev =
      ORCS.failWave cb e rest task ev := by
  rw [ORCS.failWave, hgj]

theorem failWave_step_completed (cb : Bool) (e : PyExc) (j : Nat)
    (s0 : SubTask) (rest : List (Nat × SubTask)) (task : Task)
    (ev : List Event) (subj : SubTask)
    (hgj : task.subtasks.get? j = some subj)
    (hc : subj.status = .completed) :
    ORCS.failWave cb e ((j, s0) :: rest) task ev =
      ORCS.failWave cb e rest task ev := by
  rw [ORCS.failWave, hgj]
  simp only [hc, if_true]

theorem failWave_step_mark (cb : Bool) (e : PyExc) (j : Nat) (s0 : SubTask)
    (rest : List (Nat × SubTask)) (task : Task) (ev : List Event)
    (subj : SubTask) (hgj : task.subtasks.get? j = some subj)
    (hc : ¬ subj.status = .completed) :
    ORCS.failWave cb e ((j, s0) :: rest) task ev =
      ORCS.failWave cb e rest
        (task.setSubtask j { subj with status := .failed })
        (emit cb ev (.status (some subj.subtask_id) .failed
          ("Failed subtask: " ++ subj.title ++ " - " ++ excStr e) none)) := by
  rw [ORCS.failWave, hgj]
  simp only [hc, if_false]

theorem failWave_persist (cb : Bool) (e : PyExc) :
    ∀ (pending : List (Nat × SubTask)) (task : Task) (ev : List Event)
      (i : Nat) (sub : SubTask),
      task.subtasks.get? i = some sub →
      (sub.status = .completed ∨ sub.status = .failed) →
      (ORCS.failWave cb e pending task ev).1.subtasks.get? i = some sub := by
  intro pending
  induction pending with
  | nil => intro task ev i sub hg _; exact hg
  | cons p rest ih =>
      obtain ⟨j, s0⟩ := p
      intro task ev i sub hg hst
      cases hgj : task.subtasks.get? j with
      | none =>
          rw [failWave_step_none cb e j s0 rest task ev hgj]
          exact ih task ev i sub hg hst
      | some subj =>
          by_cases hc : subj.status = .completed
          · rw [failWave_step_completed cb e j s0 rest task ev subj hgj hc]
            exact ih task ev i sub hg hst
          · rw [failWave_step_mark cb e j s0 rest task ev subj hgj hc]
            apply ih
            · by_cases hij : j = i
              · subst hij
                rw [hg] at hgj
                have hsubj : subj = sub := by
                  injection hgj with hh
                  exact hh.symm
                subst hsubj
                rcases hst with hcm | hf
                · exact absurd hcm hc
                · have hself : ({ subj with status := .failed } : SubTask) =
                      subj := by
                    rw [← hf]
                  have hlt : j < task.subtasks.length := by
                    by_contra hlen
                    have hn : task.subtasks.get? j = none :=
                      List.get?_eq_none.mpr (by omega)
                    rw [hn] at hg
                    exact Option.noConfusion hg
                  rw [Task.setSubtask]
                  simp only
                  rw [hself]
                  exact List.get?_set_eq_of_lt _ hlt
              · rw [Task.setSubtask]
                simp only
                rw [List.get?_set_ne _ _ hij]
                exact hg
            · exact hst

theorem failWave_marks (cb : Bool) (e : PyExc) :
    ∀ (pending : List (Nat × SubTask)) (task : Task) (ev : List Event),
      ∀ p ∈ pending, ∀ sub,
        (ORCS.failWave cb e pending task ev).1.subtasks.get? p.1 = some sub →
        sub.status = .completed ∨ (sub.status = .failed ∧ (cb = true →
          ∃ m, Event.status (some sub.subtask_id) .failed m none ∈
            (ORCS.failWave cb e pending task ev).2)) := by
  intro pending
  induction pending with
  | nil => intro task ev p hp; exact absurd hp (List.not_mem_nil _)
  | cons q rest ih =>
      obtain ⟨j, s0⟩ := q
      intro task ev p hp sub hsub
      cases hgj : task.subtasks.get? j with
      | none =>
          rw [failWave_step_none cb e j s0 rest task ev hgj] at hsub ⊢
          rcases List.mem_cons.mp hp with hhead | htail
          · subst hhead
            have hlen := failWave_length cb e rest task ev
            have hnone : (ORCS.failWave cb e rest task ev).1.subtasks.get? j =
                none := by
              apply List.get?_eq_none.mpr
              rw [hlen]
              exact List.get?_eq_none.mp hgj
            simp only at hsub
            rw [hnone] at hsub
            exact Option.noConfusion hsub
          · exact ih task ev p htail sub hsub
      | some subj =>
          by_cases hc : subj.status = .completed
          · rw [failWave_step_completed cb e j s0 rest task ev subj hgj hc]
              at hsub ⊢
            rcases List.mem_cons.mp hp with hhead | htail
            · subst hhead
              simp only at hsub
              have hpers := failWave_persist cb e rest task ev j subj hgj
                (Or.inl hc)
              rw [hpers] at hsub
              have hs : subj = sub := by
                injection hsub with hh
              exact Or.inl (hs ▸ hc)
            · exact ih task ev p htail sub hsub
          · rw [failWave_step_mark cb e j s0 rest task ev subj hgj hc]
              at hsub ⊢
            rcases List.mem_cons.mp hp with hhead | htail
            · subst hhead
              simp only at hsub
              have hlt : j < task.subtasks.length := by
                by_contra hlen
                have hn : task.subtasks.get? j = none :=
                  List.get?_eq_none.mpr (by omega)
                rw [hn] at hgj
                exact Option.noConfusion hgj
              have hgj' : (task.setSubtask j
                  ({ subj with status := .failed })).subtasks.get? j =
                  some { subj with status := .failed } := by
                rw [Task.setSubtask]
                simp only
                exact List.get?_set_eq_of_lt _ hlt
              have hpers := failWave_persist cb e rest
                (task.setSubtask j { subj with status := .failed })
                (emit cb ev (.status (some subj.subtask_id) .failed
                  ("Failed subtask: " ++ subj.title ++ " - " ++ excStr e)
                  none))
                j { subj with status := .failed } hgj'
                (Or.inr (statusSet_status subj .failed))
              rw [hpers] at hsub
              have hs : ({ subj with status := .failed } : SubTask) = sub := by
                injection hsub with hh
              refine Or.inr ⟨?_, ?_⟩
              · rw [← hs]
              · intro hcb
                subst hcb
                refine ⟨"Failed subtask: " ++ subj.title ++ " - " ++ excStr e,
                  ?_⟩
                have hid : sub.subtask_id = subj.subtask_id := by
                  rw [← hs]
                rw [hid]
                apply failWave_ev_mono
                unfold emit
                simp
            · exact ih _ _ p htail sub hsub

/-- Claim C6: if any subtask execution within a wave raises, execute_task
marks every wave member whose status is not COMPLETED as FAILED (emitting
a FAILED status callback for each when a callback is injected), re-raises
the same exception, and never returns a COMPLETED TaskResult for that
call. -/
theorem claim_C6 :
    (∀ (reg : ToolRegistry) (subEnv : String → SubtaskEnv) (cb : Bool)
       (tasksMap : List (String × Task))
       (completed : List (String × TaskResult)) (task : Task)
       (pending : List (Nat × SubTask)) (idx : List Nat) (ev : List Event),
      (ORCS.runGather reg subEnv cb completed tasksMap pending task
          (waveStartEvents cb pending ev)).err.isSome = true →
      (ORCS.execWave reg subEnv cb tasksMap completed task pending idx
          ev).err =
        (ORCS.runGather reg subEnv cb completed tasksMap pending task
          (waveStartEvents cb pending ev)).err ∧
      (∀ u, (ORCS.execWave reg subEnv cb tasksMap completed task pending idx
          ev).outcome ≠ .ok u) ∧
      (∀ p ∈ pending, ∀ sub,
        (ORCS.execWave reg subEnv cb tasksMap completed task pending idx
            ev).task.subtasks.get? p.1 = some sub →
        sub.status = .completed ∨ (sub.status = .failed ∧ (cb = true →
          ∃ m, Event.status (some sub.subtask_id) .failed m none ∈
            (ORCS.execWave reg subEnv cb tasksMap completed task pending idx
              ev).events)))) ∧
    (∀ (reg : ToolRegistry) (subEnv : String → SubtaskEnv) (cb : Bool)
       (fuel : Nat) (tasksMap : List (String × Task))
       (completed : List (String × TaskResult)) (task : Task) (idx : List Nat)
       (ev : List Event),
      idx.length < task.subtasks.length →
      ORCS.readySet task completed ≠ [] →
      (ORCS.execWave reg subEnv cb tasksMap completed task
          (ORCS.readySet task completed) idx ev).err.isSome = true →
      (ORCS.taskLoop reg subEnv cb (fuel + 1) tasksMap completed task idx
          ev).err =
        (ORCS.execWave reg subEnv cb tasksMap completed task
          (ORCS.readySet task completed) idx ev).err ∧
      (∀ r, (ORCS.taskLoop reg subEnv cb (fuel + 1) tasksMap completed task
          idx ev).outcome ≠ .ok r)) := by
  constructor
  · intro reg subEnv cb tasksMap completed task pending idx ev hg
    rcases hrun : ORCS.runGather reg subEnv cb completed tasksMap pending task
      (waveStartEvents cb pending ev) with ⟨task1, ev1, oc⟩
    cases oc with
    | ok triples =>
        rw [hrun] at hg
        exact absurd hg (by simp [WaveRun.err])
    | error e =>
        rw [hrun] at hg
        simp only [ORCS.execWave, hrun]
        refine ⟨rfl, by simp [WaveOut.err], ?_⟩
        intro p hp sub hsub
        exact failWave_marks cb e pending task1 ev1 p hp sub hsub
  · intro reg subEnv cb fuel tasksMap completed task idx ev hlen hne hw
    have hie : (ORCS.readySet task completed).isEmpty = false := by
      cases hcase : ORCS.readySet task completed with
      | nil => exact absurd hcase hne
      | cons a l => rfl
    rcases hwave : ORCS.execWave reg subEnv cb tasksMap completed task
      (ORCS.readySet task completed) idx ev with ⟨t1, c1, i1, e1, oc⟩
    cases oc with
    | ok u =>
        rw [hwave] at hw
        exact absurd hw (by simp [WaveOut.err])
    | error e =>
        rw [hwave] at hw
        simp only [ORCS.taskLoop, if_pos hlen, hie, Bool.false_eq_true,
          if_false, hwave]
        exact ⟨rfl, by simp⟩

/-- A subtask whose parent_task_id points at a task missing from the
orchestrator map, so its execution raises. -/
def subBad : SubTask :=
  { subtask_id := "TB_sub_0", task_id := "ZZ", agent := agentA,
    title := "Broken", detail := "d" }

/-- The task owning subBad under a different id than subBad names. -/
def taskBad : Task := { task_id := "TB", query := "qb", subtasks := [subBad] }

/-- Claim C6, witness: the wave conjunct and the propagation conjunct of
the claim instantiated at the one-member wave whose execution raises. -/
theorem claim_C6_witness :
    ((ORCS.runGather regEmpty (fun _ => envFree) true [] []
        (ORCS.readySet taskBad []) taskBad
        (waveStartEvents true (ORCS.readySet taskBad []) [])).err.isSome =
      true ∧
      (∀ u, (ORCS.execWave regEmpty (fun _ => envFree) true [] [] taskBad
          (ORCS.readySet taskBad []) [] []).outcome ≠ .ok u)) ∧
    ((ORCS.execWave regEmpty (fun _ => envFree) true [] [] taskBad
        (ORCS.readySet taskBad []) [] []).err.isSome = true ∧
      (∀ r, (ORCS.taskLoop regEmpty (fun _ => envFree) true 2 [] [] taskBad
          [] []).outcome ≠ .ok r)) :=
  ⟨⟨by decide,
    (claim_C6.1 regEmpty (fun _ => envFree) true [] [] taskBad
      (ORCS.readySet taskBad []) [] [] (by decide)).2.1⟩,
   ⟨by decide,
    (claim_C6.2 regEmpty (fun _ => envFree) true 1 [] [] taskBad [] []
      (by decide) (by decide) (by decide)).2⟩⟩

/- ------------ Claim C5 ------------ -/

/-- The event log carried by a loop exit. -/
def exitEvents : LoopExit → List Event
  | .done _ _ ev => ev
  | .exc _ _ _ _ ev => ev

theorem emit_cases (cb : Bool) (ev : List Event) (e x : Event)
    (hx : x ∈ emit cb ev e) : x ∈ ev ∨ x = e := by
  unfold emit at hx
  cases cb with
  | false => exact Or.inl hx
  | true =>
      rcases List.mem_append.mp hx with h | h
      · exact Or.inl h
      · exact Or.inr (List.mem_singleton.mp h)

theorem toolCallsOver_events (reg : ToolRegistry) (cb : Bool) (sid : String) :
    ∀ (tcs : List ToolCallReq) (coll : List (String × Value)) (ev : List Event)
      (x : Event), x ∈ (toolCallsOver reg cb sid tcs coll ev).2.2 →
      x ∈ ev ∨ x.isLaunch = false := by
  intro tcs
  induction tcs with
  | nil => intro coll ev x hx; exact Or.inl hx
  | cons tc rest ih =>
      intro coll ev x hx
      have hstep : (toolCallsOver reg cb sid (tc :: rest) coll ev).2.2 =
          (toolCallsOver reg cb sid rest
            (assocSet coll tc.name (Value.dict
              [("result", strDictValue
                  (ORCS.execute_tool_call reg tc).result.to_dict),
               ("error", optStrValue (ORCS.execute_tool_call reg tc).error),
               ("timestamp", .vStr (ORCS.execute_tool_call reg tc).timestamp)]))
            (emit cb (emit cb ev (.status (some sid) .in_progress
                ("Using " ++ tc.name ++ " to gather information...")
                (some (.toolCallStart tc.name tc.arguments))))
              (.status (some sid) .in_progress
                ("Information gathered from " ++ tc.name)
                (some (.toolResult tc.name
                  (ORCS.execute_tool_call reg tc).result.to_dict
                  (ORCS.execute_tool_call reg tc).error))))).2.2 := by
        rcases h : toolCallsOver reg cb sid rest _ _ with ⟨r1, c1, e1⟩
        simp [toolCallsOver, h]
      rw [hstep] at hx
      rcases ih _ _ x hx with hev | hnl
      · rcases emit_cases _ _ _ _ hev with hev2 | hx2
        · rcases emit_cases _ _ _ _ hev2 with hev3 | hx3
          · exact Or.inl hev3
          · subst hx3; exact Or.inr rfl
        · subst hx2; exact Or.inr rfl
      · exact Or.inr hnl

theorem handle_tool_calls_events (reg : ToolRegistry) (cb : Bool)
    (st : SubTask) (resp : LMResponse) (coll : List (String × Value))
    (ev : List Event) (x : Event)
    (hx : x ∈ (ORCS.handle_tool_calls reg cb st resp coll ev).events) :
    x ∈ ev ∨ x.isLaunch = false := by
  by_cases hie : resp.tool_calls.isEmpty
  · rw [ORCS.handle_tool_calls, if_pos hie] at hx
    exact Or.inl hx
  · have hne : resp.tool_calls ≠ [] := by
      intro hh
      exact hie (by rw [hh]; rfl)
    have hstep : (ORCS.handle_tool_calls reg cb st resp coll ev).events =
        (toolCallsOver reg cb st.subtask_id resp.tool_calls coll ev).2.2 := by
      rcases h : toolCallsOver reg cb st.subtask_id resp.tool_calls coll ev
        with ⟨r1, c1, e1⟩
      simp [ORCS.handle_tool_calls, if_neg hie, h, hne]
    rw [hstep] at hx
    exact toolCallsOver_events reg cb st.subtask_id resp.tool_calls coll ev x
      hx

theorem finalize_events (env : SubtaskEnv) (cb : Bool) (st : SubTask)
    (coll : List (String × Value)) (resp : LMResponse) (it : Nat)
    (ev : List Event) (x : Event)
    (hx : x ∈ exitEvents (ORCS.finalize_response env cb st coll resp it ev)) :
    x ∈ ev ∨ x.isLaunch = false := by
  rw [ORCS.finalize_response] at hx
  cases hf : env.finalize with
  | error m =>
      rw [hf] at hx
      simp only [exitEvents] at hx
      rcases List.mem_append.mp hx with h | h
      · rcases emit_cases _ _ _ _ h with h2 | h2
        · exact Or.inl h2
        · subst h2; exact Or.inr rfl
      · rw [List.mem_singleton.mp h]; exact Or.inr rfl
  | ok v =>
      rw [hf] at hx
      simp only [exitEvents] at hx
      rcases emit_cases _ _ _ _ hx with h | h
      · rcases List.mem_append.mp h with h2 | h2
        · rcases emit_cases _ _ _ _ h2 with h3 | h3
          · exact Or.inl h3
          · subst h3; exact Or.inr rfl
        · rw [List.mem_singleton.mp h2]; exact Or.inr rfl
      · subst h; exact Or.inr rfl

theorem roundPrefixEvents_cases (cb : Bool) (st : SubTask)
    (agentTools : List String) (ev : List Event) (x : Event)
    (hx : x ∈ ORCS.roundPrefixEvents cb st agentTools ev) :
    x ∈ ev ∨ x.isLaunch = false := by
  rw [ORCS.roundPrefixEvents] at hx
  rcases List.mem_append.mp hx with h | h
  · rcases emit_cases _ _ _ _ h with h2 | h2
    · exact Or.inl h2
    · subst h2; exact Or.inr rfl
  · rw [List.mem_singleton.mp h]; exact Or.inr rfl

theorem subtaskLoop_events (reg : ToolRegistry) (env : SubtaskEnv) (cb : Bool)
    (agentTools : List String) :
    ∀ (fuel it : Nat) (messages : List ChatMessage)
      (coll : List (String × Value)) (st : SubTask) (ev : List Event)
      (x : Event),
      x ∈ exitEvents (ORCS.subtaskLoop reg env cb agentTools fuel it messages
        coll st ev) →
      x ∈ ev ∨ x.isLaunch = false := by
  intro fuel
  induction fuel with
  | zero => intro it messages coll st ev x hx; exact Or.inl hx
  | succ f ih =>
      intro it messages coll st ev x hx
      simp only [ORCS.subtaskLoop] at hx
      have hout : ∀ y,
          y ∈ (ORCS.handle_tool_calls reg cb
            (ORCS.roundSubtask st (env.responses (it + 1)))
            (env.responses (it + 1)) coll
            (ORCS.roundPrefixEvents cb st agentTools ev)).events →
          y ∈ ev ∨ y.isLaunch = false := by
        intro y hy
        rcases handle_tool_calls_events _ _ _ _ _ _ y hy with h | h
        · exact roundPrefixEvents_cases _ _ _ _ y h
        · exact Or.inr h
      split at hx
      · rcases finalize_events _ _ _ _ _ _ _ x hx with h | h
        · exact hout x h
        · exact Or.inr h
      · split at hx
        · simp only [exitEvents] at hx
          rcases emit_cases _ _ _ _ hx with h | h
          · exact hout x h
          · subst h; exact Or.inr rfl
        · rcases ih _ _ _ _ _ x hx with h | h
          · exact hout x h
          · exact Or.inr h

theorem subtaskExceptBlock_events (cb : Bool) (st : SubTask)
    (coll : List (String × Value)) (it : Nat) (ev : List Event) (e : PyExc)
    (x : Event)
    (hx : x ∈ (ORCS.subtaskExceptBlock cb st coll it ev e).events) :
    x ∈ ev ∨ x.isLaunch = false := by
  rcases emit_cases _ _ _ _ hx with h | h
  · exact Or.inl h
  · subst h; exact Or.inr rfl

theorem execute_subtask_events (tasksMap : List (String × Task))
    (reg : ToolRegistry) (env : SubtaskEnv) (cb : Bool) (subtask : SubTask)
    (x : Event)
    (hx : x ∈ (ORCS.execute_subtask tasksMap reg env cb subtask).events) :
    x.isLaunch = false := by
  have hbase : ∀ y, y ∈ emit cb []
      (Event.status (some subtask.subtask_id) .in_progress
        ("Agent " ++ subtask.agent.name ++ " is analyzing the task...")
        none) → y.isLaunch = false := by
    intro y hy
    rcases emit_cases _ _ _ _ hy with h | h
    · exact absurd h (List.not_mem_nil _)
    · subst h; rfl
  rw [ORCS.execute_subtask] at hx
  cases hlk : assocLookup tasksMap subtask.task_id with
  | none =>
      simp only [hlk] at hx
      rcases subtaskExceptBlock_events _ _ _ _ _ _ x hx with h | h
      · exact hbase x h
      · exact h
  | some tk =>
      simp only [hlk] at hx
      rcases hsl : ORCS.subtaskLoop reg env cb
          (reg.get_agent_tools subtask.agent) MAX_ITERATIONS 0
          [{ role := "system", content := some subtask.agent.instructions },
           { role := "user", content := some (subtaskUserPrompt tk
             { subtask with status := .in_progress, start_time := some nowStr }
             (subtask.dependencies.map (fun dep => dep.subtask_id))) }]
          []
          { subtask with status := .in_progress, start_time := some nowStr }
          (emit cb [] (.status (some subtask.subtask_id) .in_progress
            ("Agent " ++ subtask.agent.name ++
              " is analyzing the task...") none)) with
        ⟨r0, st0, ev0⟩ | ⟨e0, st0, coll0, it0, ev0⟩
      · rw [hsl] at hx
        simp only at hx
        have hx' : x ∈ exitEvents (LoopExit.done r0 st0 ev0) := hx
        rw [← hsl] at hx'
        rcases subtaskLoop_events reg env cb _ _ _ _ _ _ _ x hx' with h | h
        · exact hbase x h
        · exact h
      · rw [hsl] at hx
        simp only at hx
        rcases subtaskExceptBlock_events _ _ _ _ _ _ x hx with h | h
        · have hx' : x ∈ exitEvents (LoopExit.exc e0 st0 coll0 it0 ev0) := h
          rw [← hsl] at hx'
          rcases subtaskLoop_events reg env cb _ _ _ _ _ _ _ x hx' with
            h2 | h2
          · exact hbase x h2
          · exact h2
        · exact h

/-- Every launch recorded in the log passed its ready check: the launched
subtask can_execute the completed_results snapshot it was selected on. -/
def LaunchInv (l : List Event) : Prop :=
  ∀ sub snap, Event.launch sub snap ∈ l → sub.can_execute snap = true

theorem runGather_inv (reg : ToolRegistry) (subEnv : String → SubtaskEnv)
    (cb : Bool) (snap : List (String × TaskResult))
    (tasksMap : List (String × Task)) :
    ∀ (pending : List (Nat × SubTask)) (task : Task) (ev : List Event),
      LaunchInv ev → (∀ p ∈ pending, p.2.can_execute snap = true) →
      LaunchInv (ORCS.runGather reg subEnv cb snap tasksMap pending task
        ev).events := by
  intro pending
  induction pending with
  | nil => intro task ev hinv _; exact hinv
  | cons q rest ih =>
      obtain ⟨i, s⟩ := q
      intro task ev hinv hp
      have hinv' : LaunchInv ((ev ++ [Event.launch s snap]) ++
          (ORCS.execute_subtask (assocSet tasksMap task.task_id task) reg
            (subEnv s.subtask_id) cb s).events) := by
        intro sub sn hmem
        rcases List.mem_append.mp hmem with h | h
        · rcases List.mem_append.mp h with h2 | h2
          · exact hinv sub sn h2
          · have := List.mem_singleton.mp h2
            injection this with h3 h4
            rw [h3, h4]
            exact hp (i, s) (List.mem_cons_self _ _)
        · have := execute_subtask_events _ _ _ _ _ _ h
          exact absurd this (by simp [Event.isLaunch])
      have hrest : ∀ p ∈ rest, p.2.can_execute snap = true :=
        fun p hmem => hp p (List.mem_cons_of_mem _ hmem)
      rcases hout : (ORCS.execute_subtask (assocSet tasksMap task.task_id
          task) reg (subEnv s.subtask_id) cb s).outcome with e | res
      · show LaunchInv (ORCS.runGather reg subEnv cb snap tasksMap
          ((i, s) :: rest) task ev).events
        rw [ORCS.runGather]
        simp only [hout]
        exact hinv'
      · show LaunchInv (ORCS.runGather reg subEnv cb snap tasksMap
          ((i, s) :: rest) task ev).events
        rw [ORCS.runGather]
        simp only [hout]
        rcases hrec : ORCS.runGather reg subEnv cb snap tasksMap rest
          (task.setSubtask i (ORCS.execute_subtask (assocSet tasksMap
            task.task_id task) reg (subEnv s.subtask_id) cb s).subtask)
          ((ev ++ [Event.launch s snap]) ++
            (ORCS.execute_subtask (assocSet tasksMap task.task_id task) reg
              (subEnv s.subtask_id) cb s).events) with ⟨t2, e2, oc⟩
        have hrecInv := ih
          (task.setSubtask i (ORCS.execute_subtask (assocSet tasksMap
            task.task_id task) reg (subEnv s.subtask_id) cb s).subtask)
          ((ev ++ [Event.launch s snap]) ++
            (ORCS.execute_subtask (assocSet tasksMap task.task_id task) reg
              (subEnv s.subtask_id) cb s).events) hinv' hrest
        rw [hrec] at hrecInv
        cases oc with
        | ok triples => exact hrecInv
        | error e => exact hrecInv

theorem applyWaveResults_inv (cb : Bool) :
    ∀ (triples : List (Nat × SubTask × TaskResult)) (task : Task)
      (completed : List (String × TaskResult)) (idx : List Nat)
      (ev : List Event), LaunchInv ev →
      LaunchInv (ORCS.applyWaveResults cb triples task completed idx
        ev).2.2.2 := by
  intro triples
  induction triples with
  | nil => intro task completed idx ev hinv; exact hinv
  | cons t rest ih =>
      obtain ⟨i, sub, res⟩ := t
      intro task completed idx ev hinv
      rw [ORCS.applyWaveResults]
      apply ih
      intro s sn hmem
      rcases emit_cases _ _ _ _ hmem with h | h
      · exact hinv s sn h
      · exact absurd h (by simp)

theorem failWave_inv (cb : Bool) (e : PyExc) :
    ∀ (pending : List (Nat × SubTask)) (task : Task) (ev : List Event),
      LaunchInv ev → LaunchInv (ORCS.failWave cb e pending task ev).2 := by
  intro pending
  induction pending with
  | nil => intro task ev hinv; exact hinv
  | cons q rest ih =>
      obtain ⟨j, s0⟩ := q
      intro task ev hinv
      cases hgj : task.subtasks.get? j with
      | none =>
          rw [failWave_step_none cb e j s0 rest task ev hgj]
          exact ih task ev hinv
      | some subj =>
          by_cases hc : subj.status = .completed
          · rw [failWave_step_completed cb e j s0 rest task ev subj hgj hc]
            exact ih task ev hinv
          · rw [failWave_step_mark cb e j s0 rest task ev subj hgj hc]
            apply ih
            intro s sn hmem
            rcases emit_cases _ _ _ _ hmem with h | h
            · exact hinv s sn h
            · exact absurd h (by simp)

theorem waveStartEvents_inv (cb : Bool) (pending : List (Nat × SubTask))
    (ev : List Event) (hinv : LaunchInv ev) :
    LaunchInv (waveStartEvents cb pending ev) := by
  intro s sn hmem
  rw [waveStartEvents] at hmem
  cases cb with
  | false => exact hinv s sn hmem
  | true =>
      rcases List.mem_append.mp hmem with h | h
      · exact hinv s sn h
      · obtain ⟨p, _, hp⟩ := List.mem_map.mp h
        exact absurd hp (by simp)

theorem execWave_inv (reg : ToolRegistry) (subEnv : String → SubtaskEnv)
    (cb : Bool) (tasksMap : List (String × Task))
    (completed : List (String × TaskResult)) (task : Task)
    (pending : List (Nat × SubTask)) (idx : List Nat) (ev : List Event)
    (hinv : LaunchInv ev)
    (hp : ∀ p ∈ pending, p.2.can_execute completed = true) :
    LaunchInv (ORCS.execWave reg subEnv cb tasksMap completed task pending
      idx ev).events := by
  have hg := runGather_inv reg subEnv cb completed tasksMap pending task
    (waveStartEvents cb pending ev) (waveStartEvents_inv cb pending ev hinv)
    hp
  rcases hrun : ORCS.runGather reg subEnv cb completed tasksMap pending task
    (waveStartEvents cb pending ev) with ⟨task1, ev1, oc⟩
  rw [hrun] at hg
  simp only [ORCS.execWave, hrun]
  cases oc with
  | ok triples =>
      rcases happ : ORCS.applyWaveResults cb triples task1 completed idx ev1
        with ⟨t2, c2, i2, e2⟩
      have := applyWaveResults_inv cb triples task1 completed idx ev1 hg
      rw [happ] at this
      simpa [happ] using this
  | error e =>
      rcases hfail : ORCS.failWave cb e pending task1 ev1 with ⟨t2, e2⟩
      have := failWave_inv cb e pending task1 ev1 hg
      rw [hfail] at this
      simpa [hfail] using this

theorem taskLoop_inv (reg : ToolRegistry) (subEnv : String → SubtaskEnv)
    (cb : Bool) :
    ∀ (fuel : Nat) (tasksMap : List (String × Task))
      (completed : List (String × TaskResult)) (task : Task) (idx : List Nat)
      (ev : List Event), LaunchInv ev →
      LaunchInv (ORCS.taskLoop reg subEnv cb fuel tasksMap completed task idx
        ev).events := by
  intro fuel
  induction fuel with
  | zero => intro tasksMap completed task idx ev hinv; exact hinv
  | succ f ih =>
      intro tasksMap completed task idx ev hinv
      by_cases hguard : idx.length < task.subtasks.length
      · by_cases hpe : (ORCS.readySet task completed).isEmpty
        · simp only [ORCS.taskLoop, if_pos hguard, hpe, if_true]
          exact hinv
        · have hp : ∀ p ∈ ORCS.readySet task completed,
              p.2.can_execute completed = true := by
            intro p hmem
            have hsplit : p.2.status.isPending = true ∧
                p.2.can_execute completed = true := by
              simpa using (List.mem_filter.mp hmem).2
            exact hsplit.2
          have hw := execWave_inv reg subEnv cb tasksMap completed task
            (ORCS.readySet task completed) idx ev hinv hp
          rcases hwave : ORCS.execWave reg subEnv cb tasksMap completed task
            (ORCS.readySet task completed) idx ev with ⟨t1, c1, i1, e1, oc⟩
          rw [hwave] at hw
          simp only [ORCS.taskLoop, if_pos hguard, hpe, Bool.false_eq_true,
            if_false, hwave]
          cases oc with
          | ok u => exact ih _ _ _ _ _ hw
          | error e => exact hw
      · simp only [ORCS.taskLoop, if_neg hguard]
        exact hinv

theorem can_execute_spec (s : SubTask) (comp : List (String × TaskResult))
    (h : s.can_execute comp = true) :
    ∀ dep ∈ s.dependencies, ∃ r, assocLookup comp dep.task_id = some r ∧
      r.status = .completed := by
  intro dep hdep
  rw [SubTask.can_execute] at h
  cases hie : s.dependencies.isEmpty with
  | true =>
      rw [List.isEmpty_iff] at hie
      rw [hie] at hdep
      exact absurd hdep (List.not_mem_nil _)
  | false =>
      rw [hie] at h
      simp only [Bool.false_eq_true, if_false] at h
      have := List.all_eq_true.mp h dep hdep
      cases hl : assocLookup comp dep.task_id with
      | none => rw [hl] at this; exact absurd this (by simp)
      | some r =>
          rw [hl] at this
          simp only at this
          refine ⟨r, rfl, ?_⟩
          cases hs : r.status with
          | completed => rfl
          | pending =>
              rw [hs] at this
              exact absurd this (by simp [TaskStatus.isCompleted])
          | in_progress =>
              rw [hs] at this
              exact absurd this (by simp [TaskStatus.isCompleted])
          | failed =>
              rw [hs] at this
              exact absurd this (by simp [TaskStatus.isCompleted])

/-- Claim C5: during any execution of execute_task, a subtask is handed to
the subtask executor only when every dependency upstream id is present in
the completed_results snapshot with a COMPLETED TaskResult (every launch
entry of the trace satisfies the dependency condition against its
snapshot); a subtask with no dependencies always passes can_execute. -/
theorem claim_C5 :
    (∀ (reg : ToolRegistry) (subEnv : String → SubtaskEnv) (cb : Bool)
       (tasksMap : List (String × Task))
       (completed : List (String × TaskResult)) (task : Task) (k : Nat)
       (sub : SubTask) (snap : List (String × TaskResult)),
      (ORCS.execute_task reg subEnv cb tasksMap completed task).events.get?
          k = some (.launch sub snap) →
      ∀ dep ∈ sub.dependencies, ∃ r, assocLookup snap dep.task_id = some r ∧
        r.status = .completed) ∧
    (∀ (s : SubTask) (completed : List (String × TaskResult)),
      s.dependencies = [] → s.can_execute completed = true) := by
  constructor
  · intro reg subEnv cb tasksMap completed task k sub snap hk
    have hmem := List.get?_mem hk
    have hinv := taskLoop_inv reg subEnv cb (task.subtasks.length + 1)
      tasksMap completed
      { task with status := .in_progress, start_time := some nowStr } [] []
      (fun s sn hmem => absurd hmem (List.not_mem_nil _))
    have hce := hinv sub snap hmem
    exact can_execute_spec sub snap hce
  · intro s completed h
    rw [SubTask.can_execute, h]
    rfl

/-- Claim C5, witness: the second wave of the two-wave fixture launches
the dependent subtask against a snapshot holding the COMPLETED result of
its upstream; the no-dependency conjunct instantiates at subA. -/
theorem claim_C5_witness :
    (c5run.events.get? 10 = some (.launch c5sub2 [("T4_sub_0", resA)]) ∧
      (∀ dep ∈ c5sub2.dependencies, ∃ r,
        assocLookup [("T4_sub_0", resA)] dep.task_id = some r ∧
        r.status = .completed)) ∧
    (subA.dependencies = [] ∧ subA.can_execute [] = true) :=
  ⟨⟨by decide,
    claim_C5.1 regEmpty (fun _ => envFree) true [("T4", c5task)] [] c5task
      10 c5sub2 [("T4_sub_0", resA)] (by decide)⟩,
   rfl, claim_C5.2 subA [] rfl⟩

end Orcs
